import Mathlib

/-!
Verification of the forensic-traceability core of CRM_SynAppsSys.

The development shallowly embeds the relevant Python source:
  - `crm_exo_v2/core/repository_base.py`   (class `AUPRepository`)
  - `crm_exo_v2/core/repository_trazabilidad.py`
        (`HistorialGeneralRepository`, `HashRepository`)
  - `crm_exo_v2/core/trazabilidad/historial.py`
        (`EventoHistorial`, `HistorialRepository`)

Machinery embedded from the Python runtime, because the source leans on it:
  - SHA-256 (`hashlib.sha256(...).hexdigest()`), implemented over byte lists,
  - UTF-8 encoding (`str.encode('utf-8')`),
  - `json.dumps` with the three option combinations the source uses,
  - naive `datetime` objects with `isoformat` / `fromisoformat`,
  - a small relational store standing for the SQLite database, with an
    explicit committed/pending split so that `commit`/`rollback` are honest.

SQLite rows are dynamically typed; a row is modelled as its rowid plus an
association list of column values.  `id_evento`, `id_hash` and the domain
`id_*` columns are `INTEGER PRIMARY KEY AUTOINCREMENT` (init_db_v2.py), i.e.
aliases of the rowid, so the model resolves a table's primary-key column name
to the rowid.
-/

namespace CRM

set_option maxRecDepth 100000

/- ================================================================
   SHA-256 over byte lists (hashlib.sha256), words as Nat mod 2^32
   ================================================================ -/

def w32 : Nat := 4294967296

def add32 (a b : Nat) : Nat := (a + b) % w32

def rotr32 (n x : Nat) : Nat := ((x >>> n) ||| (x <<< (32 - n))) % w32

def shaS0 (x : Nat) : Nat := (rotr32 7 x) ^^^ (rotr32 18 x) ^^^ (x >>> 3)

def shaS1 (x : Nat) : Nat := (rotr32 17 x) ^^^ (rotr32 19 x) ^^^ (x >>> 10)

def shaB0 (x : Nat) : Nat := (rotr32 2 x) ^^^ (rotr32 13 x) ^^^ (rotr32 22 x)

def shaB1 (x : Nat) : Nat := (rotr32 6 x) ^^^ (rotr32 11 x) ^^^ (rotr32 25 x)

def shaCh (x y z : Nat) : Nat := (x &&& y) ^^^ ((x ^^^ 4294967295) &&& z)

def shaMaj (x y z : Nat) : Nat := (x &&& y) ^^^ (x &&& z) ^^^ (y &&& z)

def sha256K : List Nat :=
  [1116352408, 1899447441, 3049323471, 3921009573, 961987163,
   1508970993, 2453635748, 2870763221, 3624381080, 310598401,
   607225278, 1426881987, 1925078388, 2162078206, 2614888103,
   3248222580, 3835390401, 4022224774, 264347078, 604807628,
   770255983, 1249150122, 1555081692, 1996064986, 2554220882,
   2821834349, 2952996808, 3210313671, 3336571891, 3584528711,
   113926993, 338241895, 666307205, 773529912, 1294757372,
   1396182291, 1695183700, 1986661051, 2177026350, 2456956037,
   2730485921, 2820302411, 3259730800, 3345764771, 3516065817,
   3600352804, 4094571909, 275423344, 430227734, 506948616,
   659060556, 883997877, 958139571, 1322822218, 1537002063,
   1747873779, 1955562222, 2024104815, 2227730452, 2361852424,
   2428436474, 2756734187, 3204031479, 3329325298]

def sha256H0 : List Nat :=
  [1779033703, 3144134277, 1013904242, 2773480762,
   1359893119, 2600822924, 528734635, 1541459225]

/-- Message-schedule step: words 0..15 come from the block, 16..63 from the
recurrence. -/
def shaSchedStep (block : List Nat) (ws : List Nat) (i : Nat) : List Nat :=
  if i < 16 then ws ++ [block.getD i 0]
  else ws ++ [add32 (add32 (shaS1 (ws.getD (i - 2) 0)) (ws.getD (i - 7) 0))
                    (add32 (shaS0 (ws.getD (i - 15) 0)) (ws.getD (i - 16) 0))]

def sha256Sched (block : List Nat) : List Nat :=
  (List.range 64).foldl (shaSchedStep block) []

/-- One compression round; the state is the 8-word list [a,b,c,d,e,f,g,h]. -/
def sha256Round (st : List Nat) (kw : Nat × Nat) : List Nat :=
  match st with
  | [a, b, c, d, e, f, g, h] =>
      let t1 := add32 h (add32 (shaB1 e) (add32 (shaCh e f g) (add32 kw.1 kw.2)))
      let t2 := add32 (shaB0 a) (shaMaj a b c)
      [add32 t1 t2, a, b, c, add32 d t1, e, f, g]
  | other => other

def sha256Block (st : List Nat) (block : List Nat) : List Nat :=
  let st2 := (sha256K.zip (sha256Sched block)).foldl sha256Round st
  (st.zip st2).map (fun p => add32 p.1 p.2)

/-- Big-endian 4-byte words from a byte list. -/
def bytesToWords : List Nat → List Nat
  | a :: b :: c :: d :: rest => (((a * 256 + b) * 256 + c) * 256 + d) :: bytesToWords rest
  | _ => []

/-- Split into 16-word blocks; the fuel argument (instantiated with the list
length, a bound on the number of blocks) keeps the recursion structural. -/
def toBlocksF : Nat → List Nat → List (List Nat)
  | 0, _ => []
  | _, [] => []
  | fuel + 1, w :: rest => ((w :: rest).take 16) :: toBlocksF fuel ((w :: rest).drop 16)

def toBlocks (ws : List Nat) : List (List Nat) := toBlocksF ws.length ws

/-- Length (in bits) as 8 big-endian bytes. -/
def lenBytes (bits : Nat) : List Nat :=
  [bits / 72057594037927936 % 256, bits / 281474976710656 % 256,
   bits / 1099511627776 % 256, bits / 4294967296 % 256,
   bits / 16777216 % 256, bits / 65536 % 256, bits / 256 % 256, bits % 256]

def sha256Pad (msg : List Nat) : List Nat :=
  let l := msg.length
  msg ++ [128] ++ List.replicate ((64 - ((l + 9) % 64)) % 64) 0 ++ lenBytes (l * 8)

def wordBytes (w : Nat) : List Nat :=
  [w / 16777216 % 256, w / 65536 % 256, w / 256 % 256, w % 256]

/-- SHA-256 digest: 32 bytes. -/
def sha256 (msg : List Nat) : List Nat :=
  let st := (toBlocks (bytesToWords (sha256Pad msg))).foldl sha256Block sha256H0
  (st.map wordBytes).flatten

def hexDigit (n : Nat) : Char :=
  if n < 10 then Char.ofNat (48 + n) else Char.ofNat (87 + n)

def byteHex (b : Nat) : List Char := [hexDigit (b / 16), hexDigit (b % 16)]

/-- hashlib's `hexdigest()`: lowercase hex of the 32 digest bytes. -/
def sha256HexBytes (msg : List Nat) : String :=
  String.mk (((sha256 msg).map byteHex).flatten)

/- ================================================================
   UTF-8 encoding (str.encode('utf-8'))
   ================================================================ -/

def utf8Char (c : Char) : List Nat :=
  let n := c.toNat
  if n < 128 then [n]
  else if n < 2048 then [192 + n / 64, 128 + n % 64]
  else if n < 65536 then [224 + n / 4096, 128 + n / 64 % 64, 128 + n % 64]
  else [240 + n / 262144, 128 + n / 4096 % 64, 128 + n / 64 % 64, 128 + n % 64]

def utf8 (s : String) : List Nat := (s.data.map utf8Char).flatten

/-- `hashlib.sha256(raw.encode('utf-8')).hexdigest()`. -/
def sha256Hex (s : String) : String := sha256HexBytes (utf8 s)

/- ================================================================
   Python values and json.dumps
   ================================================================ -/

/-- A Python float as far as `json.dumps` is concerned: `repr(float)` is what
the encoder emits for finite values, and the spellings NaN, Infinity and
-Infinity for the non-finite ones (`allow_nan` defaults to True). The claims only
exercise the non-finite constructors. -/
inductive PFloat where
  | nan
  | infinity
  | negInfinity
  | finite (r : String)
deriving DecidableEq

/-- A Python value that can appear in an event payload dict. -/
inductive JVal where
  | null
  | bool (b : Bool)
  | int (n : Int)
  | float (f : PFloat)
  | str (s : String)
  | arr (xs : List JVal)
  | obj (kvs : List (String × JVal))

def hexDigit4 (n : Nat) : List Char :=
  [hexDigit (n / 4096 % 16), hexDigit (n / 256 % 16), hexDigit (n / 16 % 16),
   hexDigit (n % 16)]

def escU (n : Nat) : List Char := '\\' :: 'u' :: hexDigit4 n

/-- One character of a JSON string literal, as the CPython encoder writes it:
backslash, quote and the control characters are always escaped (with the
two-character forms for \b \t \n \f \r); with `ensure_ascii` everything
outside 0x20..0x7e is `\uXXXX`-escaped, using surrogate pairs beyond the
BMP. -/
def escChar (ensureAscii : Bool) (c : Char) : List Char :=
  let n := c.toNat
  if c = '\\' then ['\\', '\\']
  else if c = '"' then ['\\', '"']
  else if n < 32 then
    if n = 8 then ['\\', 'b']
    else if n = 9 then ['\\', 't']
    else if n = 10 then ['\\', 'n']
    else if n = 12 then ['\\', 'f']
    else if n = 13 then ['\\', 'r']
    else escU n
  else if ensureAscii && n > 126 then
    if n < 65536 then escU n
    else escU (55296 + (n - 65536) / 1024) ++ escU (56320 + (n - 65536) % 1024)
  else [c]

def jsonQuote (ensureAscii : Bool) (s : String) : String :=
  "\"" ++ String.mk ((s.data.map (escChar ensureAscii)).flatten) ++ "\""

def floatRepr : PFloat → String
  | .nan => "NaN"
  | .infinity => "Infinity"
  | .negInfinity => "-Infinity"
  | .finite r => r

/-- Code-point lexicographic comparison of char lists — CPython's `str`
ordering. -/
def charsLe : List Char → List Char → Bool
  | [], _ => true
  | _ :: _, [] => false
  | x :: xs, y :: ys =>
      if x.toNat < y.toNat then true
      else if y.toNat < x.toNat then false
      else charsLe xs ys

def strLe (a b : String) : Bool := charsLe a.data b.data

/-- Stable insertion sort of dict entries by key (CPython `sorted` on the
keys). -/
def insertByKey (p : String × JVal) : List (String × JVal) → List (String × JVal)
  | [] => [p]
  | q :: rest => if strLe p.1 q.1 then p :: q :: rest else q :: insertByKey p rest

def sortByKey : List (String × JVal) → List (String × JVal)
  | [] => []
  | p :: rest => insertByKey p (sortByKey rest)

/-- `json.dumps` options used by the source: whether `sort_keys=True`, the
item and key separators, and `ensure_ascii`. -/
structure JCfg where
  sortKeys : Bool
  itemSep : String
  kvSep : String
  ensureAscii : Bool

/-- `json.dumps`, fuelled: the fuel bounds the nesting depth (CPython itself
recurses and is bounded by the interpreter recursion limit; every payload in
this development has depth below 3). Structural in the fuel so the kernel can
evaluate it. -/
def dumpsF (cfg : JCfg) : Nat → JVal → String
  | _, .null => "null"
  | _, .bool b => if b then "true" else "false"
  | _, .int n => toString n
  | _, .float f => floatRepr f
  | _, .str s => jsonQuote cfg.ensureAscii s
  | 0, .arr _ => ""
  | 0, .obj _ => ""
  | fuel + 1, .arr xs =>
      "[" ++ String.intercalate cfg.itemSep (xs.map (dumpsF cfg fuel)) ++ "]"
  | fuel + 1, .obj kvs =>
      let kvs2 := if cfg.sortKeys then sortByKey kvs else kvs
      "\x7b" ++
        String.intercalate cfg.itemSep
          (kvs2.map (fun p => jsonQuote cfg.ensureAscii p.1 ++ cfg.kvSep ++
            dumpsF cfg fuel p.2)) ++
      "\x7d"

/-- `json.dumps(payload, sort_keys=True, ensure_ascii=False,
separators=(',', ':'))` — repository_base.generar_hash. -/
def dumpsCanon (v : JVal) : String :=
  dumpsF ⟨true, ",", ":", false⟩ 1000 v

/-- `json.dumps(data, sort_keys=True)` with default separators and
`ensure_ascii=True` — trazabilidad/historial.py generar_hash. -/
def dumpsSorted (v : JVal) : String :=
  dumpsF ⟨true, ", ", ": ", true⟩ 1000 v

/-- Plain `json.dumps(value)` — the stored valor_anterior / valor_nuevo
columns in repository_base.registrar_evento. -/
def dumpsPlain (v : JVal) : String :=
  dumpsF ⟨false, ", ", ": ", true⟩ 1000 v

/- ================================================================
   The SQLite store
   ================================================================ -/

/-- Python-side error outcomes that the claims distinguish. -/
inductive PyErr where
  | recursionError
  | operationalError
deriving DecidableEq

instance {ε α : Type} [DecidableEq ε] [DecidableEq α] :
    DecidableEq (Except ε α) := fun x y =>
  match x, y with
  | .ok a, .ok b =>
      if h : a = b then isTrue (by rw [h])
      else isFalse (by intro hc; cases hc; exact h rfl)
  | .ok _, .error _ => isFalse (by intro hc; cases hc)
  | .error _, .ok _ => isFalse (by intro hc; cases hc)
  | .error e, .error f =>
      if h : e = f then isTrue (by rw [h])
      else isFalse (by intro hc; cases hc; exact h rfl)

/-- A SQLite value (dynamic typing): NULL, INTEGER, REAL or TEXT. -/
inductive SqlVal where
  | null
  | int (n : Int)
  | real (f : PFloat)
  | text (s : String)
deriving DecidableEq

/-- A stored row: its rowid plus the non-rowid column values. -/
structure Row where
  rowid : Nat
  fields : List (String × SqlVal)
deriving DecidableEq

/-- A table; `pk` is the name of its `INTEGER PRIMARY KEY AUTOINCREMENT`
column (init_db_v2.py), which SQLite treats as an alias of the rowid;
`nextId` is the next rowid to assign. -/
structure Table where
  pk : String
  nextId : Nat
  rows : List Row
deriving DecidableEq

abbrev DB := List (String × Table)

def getTable (db : DB) (name : String) : Option Table :=
  (db.find? (fun p => p.1 == name)).map (·.2)

def setTable (db : DB) (name : String) (t : Table) : DB :=
  db.map (fun p => if p.1 == name then (p.1, t) else p)

/-- Referencing a missing table is a sqlite3 error. -/
def getTableE (db : DB) (name : String) : Except PyErr Table :=
  match getTable db name with
  | some t => .ok t
  | none => .error .operationalError

/-- The value of column `c` in row `r` of table `t`; the primary-key column
reads back the rowid, a column that was never written reads NULL (the
unconstrained schema defaults of historial_general / hash_registros). -/
def rowVal (t : Table) (r : Row) (c : String) : SqlVal :=
  if c == t.pk then .int (Int.ofNat r.rowid)
  else (((r.fields.find? (fun f => f.1 == c)).map (·.2)).getD .null)

/-- INSERT: appends one row, assigns `nextId` as its rowid
(`cur.lastrowid`). -/
def tableInsert (t : Table) (fields : List (String × SqlVal)) : Nat × Table :=
  (t.nextId,
   { t with nextId := t.nextId + 1, rows := t.rows ++ [⟨t.nextId, fields⟩] })

def dbInsert (db : DB) (name : String) (fields : List (String × SqlVal)) :
    Except PyErr (Nat × DB) := do
  let t ← getTableE db name
  let (rid, t2) := tableInsert t fields
  pure (rid, setTable db name t2)

def setField (fields : List (String × SqlVal)) (kv : String × SqlVal) :
    List (String × SqlVal) :=
  if fields.any (fun f => f.1 == kv.1) then
    fields.map (fun f => if f.1 == kv.1 then kv else f)
  else fields ++ [kv]

/-- UPDATE ... SET data WHERE idc = idv; returns (`cur.rowcount`, new db). -/
def dbUpdate (db : DB) (name : String) (idc : String) (idv : SqlVal)
    (data : List (String × SqlVal)) : Except PyErr (Nat × DB) := do
  let t ← getTableE db name
  let hit := fun (r : Row) => rowVal t r idc == idv
  let t2 := { t with rows := t.rows.map (fun r =>
    if hit r then { r with fields := data.foldl setField r.fields } else r) }
  pure ((t.rows.filter hit).length, setTable db name t2)

/-- DELETE FROM name WHERE idc = idv. -/
def dbDelete (db : DB) (name : String) (idc : String) (idv : SqlVal) :
    Except PyErr DB := do
  let t ← getTableE db name
  let t2 := { t with rows := t.rows.filter (fun r => !(rowVal t r idc == idv)) }
  pure (setTable db name t2)

/-- SELECT ... WHERE idc = idv, `fetchone()`: first matching row in storage
order. -/
def dbFindRow (t : Table) (idc : String) (idv : SqlVal) : Option Row :=
  t.rows.find? (fun r => rowVal t r idc == idv)

/-- `ORDER BY <rowid-aliased pk> DESC`. -/
def sortRowsDesc (rows : List Row) : List Row :=
  rows.insertionSort (fun a b => b.rowid ≤ a.rowid)

/-- `ORDER BY <rowid-aliased pk> ASC`. -/
def sortRowsAsc (rows : List Row) : List Row :=
  rows.insertionSort (fun a b => a.rowid ≤ b.rowid)

def sqlText : SqlVal → String
  | .text s => s
  | _ => ""

/- ================================================================
   AUPRepository (core/repository_base.py)
   ================================================================ -/

/-- `cerrar_conexion`, exactly as written: when a connection was injected
(`_external_conn` set) the guard fails and the method returns without doing
anything; otherwise the method calls itself with the same arguments.  The
fuel is the number of Python stack frames still available; `none` is the
`RecursionError` raised once the interpreter's recursion limit is hit. -/
def cerrar_conexion (fuel : Nat) (external : Bool) : Option Unit :=
  if external then some ()
  else
    match fuel with
    | 0 => none
    | f + 1 => cerrar_conexion f external

/-- The observable outcome of the `cerrar_conexion` call inside an operation:
a no-op on an injected connection, a `RecursionError` on a managed one (the
fuelled definition above recurses whatever the stack budget, so the call
never returns normally when no connection was injected). -/
def cerrarStep (external : Bool) : Except PyErr Unit :=
  if external then .ok () else .error .recursionError

/-- Python `finally`: if the close step raises, its exception replaces the
in-flight one. -/
def closeErr (external : Bool) (e : PyErr) : PyErr :=
  if external then e else .recursionError

/-- A connection mid-transaction: the durably committed database and the
pending view including uncommitted statements. -/
structure Conn where
  committed : DB
  pending : DB

/-- Injected failure points: sqlite3 may raise on any statement (constraint
violations, unsupported bind types, I/O errors).  One flag per statement of
the write path; the claims quantify over all of them. -/
structure FailOracle where
  failDomain : Bool
  failHistIns : Bool
  failHashIns : Bool
  failCommit : Bool

/-- How sqlite3 binds a Python payload value into a column.  NaN has no
SQLite representation and is stored as NULL; lists/dicts are not bindable
(sqlite3.InterfaceError) but no call site binds them. -/
def bindVal : JVal → SqlVal
  | .null => .null
  | .bool b => .int (if b then 1 else 0)
  | .int n => .int n
  | .float .nan => .null
  | .float f => .real f
  | .str s => .text s
  | .arr _ => .null
  | .obj _ => .null

def sqlToJval : SqlVal → JVal
  | .null => .null
  | .int n => .int n
  | .real f => .float f
  | .text s => .str s

/-- `dict(row)` for a fetched row: the primary-key column (first in every
schema of init_db_v2.py) followed by the stored columns. -/
def rowDict (t : Table) (r : Row) : List (String × JVal) :=
  (t.pk, .int (Int.ofNat r.rowid)) :: r.fields.map (fun p => (p.1, sqlToJval p.2))

/-- The payload dict built by `AUPRepository.generar_hash`: entidad, accion,
valores, usuario and the UTC timestamp — note that the id of the affected
record is not part of it. -/
def hashPayload (entidad usuario accion : String) (valores : List (String × JVal))
    (ts : String) : JVal :=
  .obj [("entidad", .str entidad), ("accion", .str accion),
        ("valores", .obj valores), ("usuario", .str usuario),
        ("timestamp", .str ts)]

/-- `AUPRepository.generar_hash`: SHA-256 hex digest of the canonical JSON of
the payload.  `ts` stands for `datetime.now(UTC).isoformat()`, an input of
the model since the clock is an input of the program. -/
def generar_hash (entidad usuario accion : String)
    (valores : List (String × JVal)) (ts : String) : String :=
  sha256Hex (dumpsCanon (hashPayload entidad usuario accion valores ts))

/-- The historial_general column values written by `registrar_evento`.
`json.dumps(valor_anterior) if valor_anterior else None`: both None and an
empty dict store NULL. -/
def histFields (entidad usuario accion : String) (id_entidad : Int)
    (valor_nuevo : List (String × JVal))
    (valor_anterior : Option (List (String × JVal))) (ts hash_evt : String) :
    List (String × SqlVal) :=
  [("entidad", .text entidad),
   ("id_entidad", .int id_entidad),
   ("accion", .text accion),
   ("valor_anterior",
     match valor_anterior with
     | some kvs => if kvs.isEmpty then .null else .text (dumpsPlain (.obj kvs))
     | none => .null),
   ("valor_nuevo", .text (dumpsPlain (.obj valor_nuevo))),
   ("usuario", .text usuario),
   ("timestamp", .text ts),
   ("hash_evento", .text hash_evt)]

/-- The hash_registros column values written by `registrar_evento` (the
table's `timestamp DEFAULT CURRENT_TIMESTAMP` column is not modelled; no
claim reads it). -/
def hashRegFields (entidad : String) (id_entidad : Int) (hash_evt : String) :
    List (String × SqlVal) :=
  [("tabla_origen", .text entidad), ("id_registro", .int id_entidad),
   ("hash_sha256", .text hash_evt)]

/-- `AUPRepository.registrar_evento`: one INSERT into historial_general, one
INSERT into hash_registros, then `con.commit()`.  Raises (without rolling
back — the caller does that) if any statement fails. -/
def registrar_evento (o : FailOracle) (entidad usuario : String) (c : Conn)
    (id_entidad : Int) (accion : String) (valor_nuevo : List (String × JVal))
    (valor_anterior : Option (List (String × JVal))) (ts : String) :
    Except PyErr (String × Conn) := do
  let hash_evt := generar_hash entidad usuario accion valor_nuevo ts
  if o.failHistIns then throw .operationalError
  let (_, p1) ← dbInsert c.pending "historial_general"
    (histFields entidad usuario accion id_entidad valor_nuevo valor_anterior ts hash_evt)
  if o.failHashIns then throw .operationalError
  let (_, p2) ← dbInsert p1 "hash_registros"
    (hashRegFields entidad id_entidad hash_evt)
  if o.failCommit then throw .operationalError
  pure (hash_evt, ⟨p2, p2⟩)

/-- The shared try/except/finally tail of the three mutation methods: on an
exception the transaction is rolled back (the committed state stands) and
the exception re-raised; in either case the `finally` clause runs
`cerrar_conexion`, whose own exception (managed connection) replaces the
outcome. -/
def finishWrite {α : Type} (ext : Bool) (db : DB)
    (body : Except PyErr (α × Conn)) : Except PyErr α × DB :=
  match body with
  | .error e => (.error (closeErr ext e), db)
  | .ok (a, c2) =>
      match cerrarStep ext with
      | .ok _ => (.ok a, c2.committed)
      | .error e2 => (.error e2, c2.committed)

/-- The `try` block of `AUPRepository.crear`: INSERT into the target table,
then the forensic event. -/
def crearBody (o : FailOracle) (entidad usuario tabla : String)
    (data : List (String × JVal)) (ts : String) (db : DB) :
    Except PyErr (Int × Conn) := do
  if o.failDomain then throw .operationalError
  let (id_entidad, p1) ← dbInsert db tabla (data.map (fun p => (p.1, bindVal p.2)))
  let (_, c2) ← registrar_evento o entidad usuario ⟨db, p1⟩
    (Int.ofNat id_entidad) "CREAR" data none ts
  pure (Int.ofNat id_entidad, c2)

/-- `AUPRepository.crear` on the committed database `db`; returns the Python
outcome and the committed state afterwards. -/
def crear (o : FailOracle) (ext : Bool) (entidad usuario tabla : String)
    (data : List (String × JVal)) (ts : String) (db : DB) :
    Except PyErr Int × DB :=
  finishWrite ext db (crearBody o entidad usuario tabla data ts db)

/-- The `try` block of `AUPRepository.actualizar`: SELECT the previous
state, UPDATE, record the event, return `cur.rowcount > 0`. -/
def actualizarBody (o : FailOracle) (entidad usuario tabla : String)
    (id_campo : String) (id_entidad : Int) (data : List (String × JVal))
    (ts : String) (db : DB) : Except PyErr (Bool × Conn) := do
  if o.failDomain then throw .operationalError
  let t ← getTableE db tabla
  let anterior := dbFindRow t id_campo (.int id_entidad)
  let valor_anterior := anterior.map (rowDict t)
  let (rowcount, p1) ← dbUpdate db tabla id_campo (.int id_entidad)
    (data.map (fun p => (p.1, bindVal p.2)))
  let (_, c2) ← registrar_evento o entidad usuario ⟨db, p1⟩
    id_entidad "ACTUALIZAR" data valor_anterior ts
  pure (decide (0 < rowcount), c2)

/-- `AUPRepository.actualizar` on the committed database `db`. -/
def actualizar (o : FailOracle) (ext : Bool) (entidad usuario tabla : String)
    (id_campo : String) (id_entidad : Int) (data : List (String × JVal))
    (ts : String) (db : DB) : Except PyErr Bool × DB :=
  finishWrite ext db
    (actualizarBody o entidad usuario tabla id_campo id_entidad data ts db)

/-- The `try` block of `AUPRepository.eliminar`: fetch the row, and only if
it exists DELETE it and record the ELIMINAR event with payload
`\x7b"deleted": dict(row)\x7d`; otherwise return False without touching the
ledgers. -/
def eliminarBody (o : FailOracle) (entidad usuario tabla : String)
    (id_campo : String) (id_entidad : Int) (ts : String) (db : DB) :
    Except PyErr (Bool × Conn) := do
  if o.failDomain then throw .operationalError
  let t ← getTableE db tabla
  match dbFindRow t id_campo (.int id_entidad) with
  | none => pure (false, ⟨db, db⟩)
  | some r => do
      let p1 ← dbDelete db tabla id_campo (.int id_entidad)
      let (_, c2) ← registrar_evento o entidad usuario ⟨db, p1⟩
        id_entidad "ELIMINAR" [("deleted", .obj (rowDict t r))] none ts
      pure (true, c2)

/-- `AUPRepository.eliminar` on the committed database `db`. -/
def eliminar (o : FailOracle) (ext : Bool) (entidad usuario tabla : String)
    (id_campo : String) (id_entidad : Int) (ts : String) (db : DB) :
    Except PyErr Bool × DB :=
  finishWrite ext db
    (eliminarBody o entidad usuario tabla id_campo id_entidad ts db)

/- ================================================================
   Trazabilidad queries (core/repository_trazabilidad.py)
   ================================================================ -/

/-- `substr(col,1,16)` on the stored value (only ever applied to the TEXT
digest columns). -/
def sqlSubstr16 : SqlVal → SqlVal
  | .text s => .text (String.mk (s.data.take 16))
  | .null => .null
  | v => v

/-- The projected dict of one row of `listar_eventos`. -/
def eventoRow (t : Table) (r : Row) : List (String × SqlVal) :=
  [("id_evento", rowVal t r "id_evento"), ("entidad", rowVal t r "entidad"),
   ("id_entidad", rowVal t r "id_entidad"), ("accion", rowVal t r "accion"),
   ("usuario", rowVal t r "usuario"), ("timestamp", rowVal t r "timestamp"),
   ("hash_corto", sqlSubstr16 (rowVal t r "hash_evento")),
   ("hash_evento", rowVal t r "hash_evento")]

/-- `HistorialGeneralRepository.listar_eventos`: most recent events first
(`ORDER BY id_evento DESC LIMIT ?`), filtered when the `entidad` argument is
truthy; the connection is closed before returning. -/
def listar_eventos (ext : Bool) (limite : Nat) (entidad : Option String)
    (db : DB) : Except PyErr (List (List (String × SqlVal))) := do
  let t ← getTableE db "historial_general"
  let base :=
    match entidad with
    | some e => if e == "" then t.rows
                else t.rows.filter (fun r => rowVal t r "entidad" == .text e)
    | none => t.rows
  let rows := (sortRowsDesc base).take limite
  let _ ← cerrarStep ext
  pure (rows.map (eventoRow t))

/-- The projected dict of one row of `linea_tiempo`. -/
def lineaRow (t : Table) (r : Row) : List (String × SqlVal) :=
  [("id_evento", rowVal t r "id_evento"), ("accion", rowVal t r "accion"),
   ("usuario", rowVal t r "usuario"), ("timestamp", rowVal t r "timestamp"),
   ("valor_anterior", rowVal t r "valor_anterior"),
   ("valor_nuevo", rowVal t r "valor_nuevo"),
   ("hash_evento", rowVal t r "hash_evento")]

/-- `HistorialGeneralRepository.linea_tiempo`: all events of one
(entidad, id_entidad), `ORDER BY id_evento ASC`, no limit. -/
def linea_tiempo (ext : Bool) (entidad : String) (id_entidad : Int) (db : DB) :
    Except PyErr (List (List (String × SqlVal))) := do
  let t ← getTableE db "historial_general"
  let rows := sortRowsAsc (t.rows.filter (fun r =>
    rowVal t r "entidad" == .text entidad &&
    rowVal t r "id_entidad" == .int id_entidad))
  let _ ← cerrarStep ext
  pure (rows.map (lineaRow t))

/-- The projected dict of one row of `HashRepository.listar` (the
`tabla_origen AS entidad` aliasing included). -/
def hashRow (t : Table) (r : Row) : List (String × SqlVal) :=
  [("id_hash", rowVal t r "id_hash"), ("entidad", rowVal t r "tabla_origen"),
   ("id_registro", rowVal t r "id_registro"),
   ("hash_corto", sqlSubstr16 (rowVal t r "hash_sha256")),
   ("hash_sha256", rowVal t r "hash_sha256"),
   ("timestamp", rowVal t r "timestamp")]

/-- `HashRepository.listar`: most recent hash rows first, optional truthy
filter on tabla_origen. -/
def hash_listar (ext : Bool) (limite : Nat) (tabla_origen : Option String)
    (db : DB) : Except PyErr (List (List (String × SqlVal))) := do
  let t ← getTableE db "hash_registros"
  let base :=
    match tabla_origen with
    | some e => if e == "" then t.rows
                else t.rows.filter (fun r => rowVal t r "tabla_origen" == .text e)
    | none => t.rows
  let rows := (sortRowsDesc base).take limite
  let _ ← cerrarStep ext
  pure (rows.map (hashRow t))

/-- The value returned by `verificar_integridad_cruzada`: either the
sin_datos dict or the full comparison dict.  `hash_registro` / `hash_evento`
are the 32-character display truncations, the `hash_completo_*` fields the
stored values themselves. -/
inductive Verif where
  | sin_datos (mensaje : String)
  | resultado (tabla_origen id_registro : SqlVal)
      (hash_registro hash_evento : String)
      (hash_completo_registro hash_completo_evento : SqlVal)
      (integridad_ok : Bool) (mensaje : String)
deriving DecidableEq

def trunc32 (v : SqlVal) : String := String.mk ((sqlText v).data.take 32) ++ "..."

/-- The rows of the hash index matching the key, in storage order. -/
def hashRowsFor (th : Table) (tabla_origen id_registro : SqlVal) : List Row :=
  th.rows.filter (fun r =>
    rowVal th r "tabla_origen" == tabla_origen &&
    rowVal th r "id_registro" == id_registro)

/-- The rows of the event ledger matching the key, in storage order. -/
def eventRowsFor (tg : Table) (tabla_origen id_registro : SqlVal) : List Row :=
  tg.rows.filter (fun r =>
    rowVal tg r "entidad" == tabla_origen &&
    rowVal tg r "id_entidad" == id_registro)

/-- The comparison at the heart of `verificar_integridad_cruzada`, once the
two tables have been read: latest row on each side
(`ORDER BY <id> DESC LIMIT 1`), `sin_datos` when either side has none. -/
def cruzadaPure (th tg : Table) (tabla_origen id_registro : SqlVal) : Verif :=
  match (sortRowsDesc (hashRowsFor th tabla_origen id_registro)).head?,
        (sortRowsDesc (eventRowsFor tg tabla_origen id_registro)).head? with
  | some hr, some he =>
      let hv := rowVal th hr "hash_sha256"
      let ev := rowVal tg he "hash_evento"
      let ok := hv == ev
      .resultado tabla_origen id_registro (trunc32 hv) (trunc32 ev) hv ev ok
        (if ok then "✅ Integridad verificada" else "❌ ALERTA: Hashes no coinciden")
  | _, _ =>
      .sin_datos "No hay suficientes datos para verificar integridad"

/-- `HashRepository.verificar_integridad_cruzada`: reads both ledgers,
closes the connection, and returns the comparison.  The key arguments are
the Python values bound into the WHERE clauses. -/
def verificar_integridad_cruzada (ext : Bool) (tabla_origen id_registro : SqlVal)
    (db : DB) : Except PyErr Verif := do
  let th ← getTableE db "hash_registros"
  let tg ← getTableE db "historial_general"
  let _ ← cerrarStep ext
  pure (cruzadaPure th tg tabla_origen id_registro)

/-- The `resultados` accumulator of `auditoria_completa`. -/
structure Auditoria where
  total_verificados : Nat
  integridad_ok : Nat
  integridad_error : Nat
  sin_datos : Nat
  detalles : List Verif
deriving DecidableEq

/-- One iteration of the `auditoria_completa` loop: tally the verdict, and
append the full result dict to `detalles` only on a mismatch. -/
def audStep (acc : Auditoria) (res : Verif) : Auditoria :=
  match res with
  | .sin_datos _ =>
      { acc with total_verificados := acc.total_verificados + 1,
                 sin_datos := acc.sin_datos + 1 }
  | .resultado _ _ _ _ _ _ ok _ =>
      if ok then
        { acc with total_verificados := acc.total_verificados + 1,
                   integridad_ok := acc.integridad_ok + 1 }
      else
        { acc with total_verificados := acc.total_verificados + 1,
                   integridad_error := acc.integridad_error + 1,
                   detalles := acc.detalles ++ [res] }

def dedupKeysAux (seen : List (SqlVal × SqlVal)) :
    List (SqlVal × SqlVal) → List (SqlVal × SqlVal)
  | [] => []
  | p :: rest =>
      if p ∈ seen then dedupKeysAux seen rest
      else p :: dedupKeysAux (p :: seen) rest

/-- `SELECT DISTINCT tabla_origen, id_registro FROM hash_registros`; SQL
leaves the order unspecified, the model keeps first occurrences (the tallies
below are order-independent). -/
def dedupKeys (l : List (SqlVal × SqlVal)) : List (SqlVal × SqlVal) :=
  dedupKeysAux [] l

/-- One iteration of the `auditoria_completa` for-loop: cross-verify the
key (each call opens and closes its own connection) and tally. -/
def audLoopStep (ext : Bool) (db : DB) (acc : Auditoria)
    (pr : SqlVal × SqlVal) : Except PyErr Auditoria := do
  let res ← verificar_integridad_cruzada ext pr.1 pr.2 db
  pure (audStep acc res)

/-- `HashRepository.auditoria_completa`: every distinct key of the hash
index is cross-verified and tallied. -/
def auditoria_completa (ext : Bool) (db : DB) : Except PyErr Auditoria := do
  let th ← getTableE db "hash_registros"
  let regs := dedupKeys (th.rows.map (fun r =>
    (rowVal th r "tabla_origen", rowVal th r "id_registro")))
  let _ ← cerrarStep ext
  regs.foldlM (audLoopStep ext db) ⟨0, 0, 0, 0, []⟩

/- ================================================================
   Naive datetime with isoformat / fromisoformat
   ================================================================ -/

structure Datetime where
  year : Nat
  month : Nat
  day : Nat
  hour : Nat
  minute : Nat
  second : Nat
  microsecond : Nat
deriving DecidableEq

def digitChar (n : Nat) : Char := Char.ofNat (48 + n % 10)

def pad2 (n : Nat) : List Char := [digitChar (n / 10), digitChar n]

def pad4 (n : Nat) : List Char :=
  [digitChar (n / 1000), digitChar (n / 100), digitChar (n / 10), digitChar n]

def pad6 (n : Nat) : List Char :=
  [digitChar (n / 100000), digitChar (n / 10000), digitChar (n / 1000),
   digitChar (n / 100), digitChar (n / 10), digitChar n]

/-- `datetime.isoformat()` of a naive datetime: the `.ffffff` part is
printed only when the microsecond field is nonzero. -/
def isoChars (d : Datetime) : List Char :=
  pad4 d.year ++ '-' :: pad2 d.month ++ '-' :: pad2 d.day ++
  'T' :: pad2 d.hour ++ ':' :: pad2 d.minute ++ ':' :: pad2 d.second ++
  (if d.microsecond == 0 then [] else '.' :: pad6 d.microsecond)

def isoformat (d : Datetime) : String := String.mk (isoChars d)

def dVal (c : Char) : Nat := c.toNat - 48

def d2v (a b : Char) : Nat := dVal a * 10 + dVal b

def d4v (a b c d : Char) : Nat := ((dVal a * 10 + dVal b) * 10 + dVal c) * 10 + dVal d

def d6v (a b c d e f : Char) : Nat :=
  ((((dVal a * 10 + dVal b) * 10 + dVal c) * 10 + dVal d) * 10 + dVal e) * 10 + dVal f

/-- `datetime.fromisoformat` restricted to the shapes `isoformat` emits for
naive datetimes (no timezone), which are the only shapes this program
stores: `YYYY-MM-DD?HH:MM:SS` and `YYYY-MM-DD?HH:MM:SS.ffffff`, with any
single character as the date/time separator. -/
def fromisoformat (s : String) : Option Datetime :=
  match s.data with
  | [y1, y2, y3, y4, a1, o1, o2, a2, e1, e2, _, h1, h2, b1, i1, i2, b2, c1, c2] =>
      if [y1, y2, y3, y4, o1, o2, e1, e2, h1, h2, i1, i2, c1, c2].all Char.isDigit &&
         a1 == '-' && a2 == '-' && b1 == ':' && b2 == ':' then
        some ⟨d4v y1 y2 y3 y4, d2v o1 o2, d2v e1 e2, d2v h1 h2, d2v i1 i2,
              d2v c1 c2, 0⟩
      else none
  | [y1, y2, y3, y4, a1, o1, o2, a2, e1, e2, _, h1, h2, b1, i1, i2, b2, c1, c2,
     dt, u1, u2, u3, u4, u5, u6] =>
      if [y1, y2, y3, y4, o1, o2, e1, e2, h1, h2, i1, i2, c1, c2,
          u1, u2, u3, u4, u5, u6].all Char.isDigit &&
         a1 == '-' && a2 == '-' && b1 == ':' && b2 == ':' && dt == '.' then
        some ⟨d4v y1 y2 y3 y4, d2v o1 o2, d2v e1 e2, d2v h1 h2, d2v i1 i2,
              d2v c1 c2, d6v u1 u2 u3 u4 u5 u6⟩
      else none
  | _ => none

/- ================================================================
   trazabilidad/historial.py
   ================================================================ -/

namespace Hist

/-- The `EventoHistorial` dataclass. -/
structure EventoHistorial where
  id : Option Nat
  entidad : String
  id_entidad : Option Int
  accion : String
  valor_anterior : String
  valor_nuevo : String
  usuario : String
  timestamp : Option Datetime
  hash_evento : Option String
deriving DecidableEq

def tsStr (e : EventoHistorial) : String :=
  match e.timestamp with
  | some t => isoformat t
  | none => ""

/-- The dict hashed by `EventoHistorial.generar_hash` — here `id_entidad`
is part of the digest, unlike in `AUPRepository.generar_hash`. -/
def hashData (e : EventoHistorial) : JVal :=
  .obj [("entidad", .str e.entidad),
        ("id_entidad", match e.id_entidad with | some n => .int n | none => .null),
        ("accion", .str e.accion),
        ("valor_anterior", .str e.valor_anterior),
        ("valor_nuevo", .str e.valor_nuevo),
        ("usuario", .str e.usuario),
        ("timestamp", .str (tsStr e))]

/-- `EventoHistorial.generar_hash`: SHA-256 of
`json.dumps(data, sort_keys=True)` in UTF-8. -/
def generar_hash (e : EventoHistorial) : String :=
  sha256Hex (dumpsSorted (hashData e))

/-- `HistorialRepository.registrar_evento`: builds the event (the dataclass
`__post_init__` stamps `datetime.now()`, an input of the model), hashes it,
INSERTs it and commits; returns `cur.lastrowid`.  This repository holds the
caller's connection (`self.db`) and never closes it. -/
def registrar_evento (db : DB) (entidad : String) (id_entidad : Int)
    (accion valor_anterior valor_nuevo usuario : String) (now : Datetime) :
    Except PyErr (Nat × DB) := do
  let evento : EventoHistorial :=
    ⟨none, entidad, some id_entidad, accion, valor_anterior, valor_nuevo,
     usuario, some now, none⟩
  let h := generar_hash evento
  let (eid, db2) ← dbInsert db "historial_general"
    [("entidad", .text entidad), ("id_entidad", .int id_entidad),
     ("accion", .text accion), ("valor_anterior", .text valor_anterior),
     ("valor_nuevo", .text valor_nuevo), ("usuario", .text usuario),
     ("timestamp", .text (isoformat now)), ("hash_evento", .text h)]
  pure (eid, db2)

/-- `datetime.fromisoformat(row["timestamp"]) if row["timestamp"] else None`;
a malformed stored string raises ValueError. -/
def parseTsCol (v : SqlVal) : Except PyErr (Option Datetime) :=
  match v with
  | .null => .ok none
  | .text s =>
      if s == "" then .ok none
      else
        match fromisoformat s with
        | some d => .ok (some d)
        | none => .error .operationalError
  | _ => .error .operationalError

/-- `row["col"] or ""` for the two payload columns. -/
def orEmpty (v : SqlVal) : String :=
  match v with
  | .text s => s
  | _ => ""

/-- `HistorialRepository.verificar_integridad_evento`: re-reads the row,
rebuilds the event from the stored columns, re-hashes it, and compares with
the stored digest. -/
def verificar_integridad_evento (db : DB) (evento_id : Nat) :
    Except PyErr (Bool × String) := do
  let t ← getTableE db "historial_general"
  match dbFindRow t "id_evento" (.int (Int.ofNat evento_id)) with
  | none => pure (false, "Evento no encontrado")
  | some r => do
      let ts ← parseTsCol (rowVal t r "timestamp")
      let evento : EventoHistorial :=
        ⟨none, sqlText (rowVal t r "entidad"),
         (match rowVal t r "id_entidad" with | .int n => some n | _ => none),
         sqlText (rowVal t r "accion"),
         orEmpty (rowVal t r "valor_anterior"),
         orEmpty (rowVal t r "valor_nuevo"),
         sqlText (rowVal t r "usuario"), ts, none⟩
      let hash_calculado := generar_hash evento
      if SqlVal.text hash_calculado == rowVal t r "hash_evento" then
        pure (true, "✓ Integridad verificada")
      else
        pure (false, "⚠️ INTEGRIDAD COMPROMETIDA - Evento #" ++ toString evento_id)

/-- `ORDER BY timestamp DESC` (text comparison; the column is text in every
state this program writes). -/
def sortRowsTsDesc (t : Table) (rows : List Row) : List Row :=
  rows.insertionSort (fun a b =>
    strLe (sqlText (rowVal t b "timestamp")) (sqlText (rowVal t a "timestamp")) = true)

/-- Rebuilding an `EventoHistorial` from a fetched row, as the query
methods do. -/
def rowToEvento (t : Table) (r : Row) : Except PyErr EventoHistorial := do
  let ts ← parseTsCol (rowVal t r "timestamp")
  pure ⟨some r.rowid, sqlText (rowVal t r "entidad"),
        (match rowVal t r "id_entidad" with | .int n => some n | _ => none),
        sqlText (rowVal t r "accion"),
        orEmpty (rowVal t r "valor_anterior"),
        orEmpty (rowVal t r "valor_nuevo"),
        sqlText (rowVal t r "usuario"), ts,
        (match rowVal t r "hash_evento" with | .text s => some s | _ => none)⟩

/-- `HistorialRepository.obtener_historial_entidad`: the events of one
(entidad, id_entidad) with `ORDER BY timestamp DESC LIMIT ?` (default 50) —
most recent first. -/
def obtener_historial_entidad (db : DB) (entidad : String) (id_entidad : Int)
    (limite : Nat) : Except PyErr (List EventoHistorial) := do
  let t ← getTableE db "historial_general"
  let rows := (sortRowsTsDesc t (t.rows.filter (fun r =>
    rowVal t r "entidad" == .text entidad &&
    rowVal t r "id_entidad" == .int id_entidad))).take limite
  rows.mapM (rowToEvento t)

end Hist

/- ================================================================
   Derived notions used by the statements
   ================================================================ -/

/-- The rows a ledger table currently holds (empty when the table is
absent). -/
def ledgerRows (db : DB) (n : String) : List Row :=
  ((getTable db n).map Table.rows).getD []

/-- Physical invariants SQLite maintains for a rowid table with an
AUTOINCREMENT primary key: rows sit in increasing rowid order and every
rowid is below the next one to be assigned. -/
def WfTable (t : Table) : Prop :=
  t.rows.Pairwise (fun a b => a.rowid < b.rowid) ∧ ∀ r ∈ t.rows, r.rowid < t.nextId

/-- The row with the greatest primary key among `l`. -/
def IsLatest (l : List Row) (r : Row) : Prop :=
  r ∈ l ∧ ∀ x ∈ l, x.rowid ≤ r.rowid

/-- Neither ledger gained or lost anything between the two committed
states. -/
def GainNone (db db2 : DB) : Prop :=
  ledgerRows db2 "historial_general" = ledgerRows db "historial_general" ∧
  ledgerRows db2 "hash_registros" = ledgerRows db "hash_registros"

/-- Both ledgers gained exactly one appended row. -/
def GainBoth (db db2 : DB) : Prop :=
  (∃ er, ledgerRows db2 "historial_general" =
    ledgerRows db "historial_general" ++ [er]) ∧
  (∃ hr, ledgerRows db2 "hash_registros" =
    ledgerRows db "hash_registros" ++ [hr])

/-- The table after an INSERT of one row (what `tableInsert` leaves
behind). -/
def bumpT (t : Table) (fs : List (String × SqlVal)) : Table :=
  { t with nextId := t.nextId + 1, rows := t.rows ++ [⟨t.nextId, fs⟩] }

/-- Whether a Python call returned normally (no exception). -/
def exOk {α : Type} : Except PyErr α → Bool
  | .ok _ => true
  | .error _ => false

/-- Verdict classifiers for audit tallies. -/
def vIsSin : Verif → Bool
  | .sin_datos _ => true
  | _ => false

def vIsOk : Verif → Bool
  | .resultado _ _ _ _ _ _ ok _ => ok
  | _ => false

def vIsMismatch : Verif → Bool
  | .resultado _ _ _ _ _ _ ok _ => !ok
  | _ => false

/-- Modelled from the spec (§3, Event invariant): the digest the
specification prescribes, over the field set that includes the entity id —
`Digest(Canonicalize(\x7bentity_type, entity_id, action, new_value, actor,
timestamp\x7d))` — rendered with the program's own canonical serializer and
column names.  Used only to compare the specified digest with the one the
code computes. -/
def specEventDigest (entidad : String) (id_entidad : Int) (accion : String)
    (valores : List (String × JVal)) (usuario : String) (ts : String) : String :=
  sha256Hex (dumpsCanon (.obj
    [("entidad", .str entidad), ("id_entidad", .int id_entidad),
     ("accion", .str accion), ("valores", .obj valores),
     ("usuario", .str usuario), ("timestamp", .str ts)]))

/- ================================================================
   Concrete fixtures for witnesses and counterexamples
   ================================================================ -/

/-- An empty historial_general table. -/
def tH0 : Table := ⟨"id_evento", 1, []⟩

/-- An empty hash_registros table. -/
def tX0 : Table := ⟨"id_hash", 1, []⟩

/-- A freshly initialised database: the two (empty) ledgers. -/
def db0 : DB := [("historial_general", tH0), ("hash_registros", tX0)]

/-- The two ledgers plus an empty domain table. -/
def dbE : DB := ("empresas", ⟨"id_empresa", 1, []⟩) :: db0

/-- The no-failure oracle: every sqlite statement succeeds. -/
def o0 : FailOracle := ⟨false, false, false, false⟩

/-- A concrete clock reading (`datetime.now(UTC).isoformat()`). -/
def ts0 : String := "2025-01-02T03:04:05.000123+00:00"

/-- A concrete naive clock reading (`datetime.now()`). -/
def dt0 : Datetime := ⟨2025, 1, 2, 3, 4, 5, 123⟩

/-- A concrete two-table state for the C2 witness: two event versions for
the key (invoice, 5) whose latest digest is "bbb", and one hash-index row
with digest "bbb". -/
def dbC2 : DB :=
  [("historial_general", ⟨"id_evento", 3,
     [⟨1, [("entidad", .text "invoice"), ("id_entidad", .int 5),
           ("hash_evento", .text "aaa")]⟩,
      ⟨2, [("entidad", .text "invoice"), ("id_entidad", .int 5),
           ("hash_evento", .text "bbb")]⟩]⟩),
   ("hash_registros", ⟨"id_hash", 2,
     [⟨1, [("tabla_origen", .text "invoice"), ("id_registro", .int 5),
           ("hash_sha256", .text "bbb")]⟩]⟩)]

/-- A concrete two-table state for the C4 witness: two distinct keys in the
hash index; key (A, 1) matches the event ledger, key (B, 1) does not. -/
def dbC4 : DB :=
  [("historial_general", ⟨"id_evento", 3,
     [⟨1, [("entidad", .text "A"), ("id_entidad", .int 1),
           ("hash_evento", .text "h1")]⟩,
      ⟨2, [("entidad", .text "B"), ("id_entidad", .int 1),
           ("hash_evento", .text "zz")]⟩]⟩),
   ("hash_registros", ⟨"id_hash", 3,
     [⟨1, [("tabla_origen", .text "A"), ("id_registro", .int 1),
           ("hash_sha256", .text "h1")]⟩,
      ⟨2, [("tabla_origen", .text "B"), ("id_registro", .int 1),
           ("hash_sha256", .text "h2")]⟩]⟩)]

/-- The committed state after one concrete `Hist.registrar_evento` call on
the empty ledger, used to exercise the register/verify round trip. -/
def c9db : DB :=
  match Hist.registrar_evento db0 "empresas" 7 "crear" "" "x" "sistema" dt0 with
  | .ok (_, d) => d
  | .error _ => []

/-- A state holding one previously committed event row and its digest row,
used to probe the append-only invariant. -/
def dbC5 : DB :=
  [("historial_general", ⟨"id_evento", 2,
     [⟨1, [("entidad", .text "empresas"), ("id_entidad", .int 7),
           ("accion", .text "CREAR"), ("valor_anterior", .null),
           ("valor_nuevo", .text "\x7b\x7d"), ("usuario", .text "admin"),
           ("timestamp", .text ts0), ("hash_evento", .text "aaa")]⟩]⟩),
   ("hash_registros", ⟨"id_hash", 2,
     [⟨1, [("tabla_origen", .text "empresas"), ("id_registro", .int 7),
           ("hash_sha256", .text "aaa")]⟩]⟩)]

/-- The ledger after two `Hist.registrar_evento` calls for the key
(invoice, 42), one second apart. -/
def c6db : DB :=
  match Hist.registrar_evento db0 "invoice" 42 "crear" "" "a" "sistema"
      ⟨2025, 1, 1, 0, 0, 0, 0⟩ with
  | .ok (_, d1) =>
      match Hist.registrar_evento d1 "invoice" 42 "actualizar" "a" "b" "sistema"
          ⟨2025, 1, 1, 0, 0, 1, 0⟩ with
      | .ok (_, d2) => d2
      | .error _ => []
  | .error _ => []

/-- A two-event historial_general table with well-formed timestamps, for
the ordering witness. -/
def tC6 : Table :=
  ⟨"id_evento", 3,
   [⟨1, [("entidad", .text "invoice"), ("id_entidad", .int 42),
         ("accion", .text "crear"),
         ("timestamp", .text "2025-01-01T00:00:00"),
         ("hash_evento", .text "e1")]⟩,
    ⟨2, [("entidad", .text "invoice"), ("id_entidad", .int 42),
         ("accion", .text "actualizar"),
         ("timestamp", .text "2025-01-01T00:00:01"),
         ("hash_evento", .text "e2")]⟩]⟩

def dbC6 : DB := [("historial_general", tC6), ("hash_registros", tX0)]


/-- FIPS 180-2 test vector, checking the embedding of hashlib. -/
example :
    sha256Hex "abc" =
      "ba7816bf8f01cfea414140de5dae2223b00361a396177a9cb410ff61f20015ad" := by
  decide

/- ================================================================
   Lemmas about the store
   ================================================================ -/

theorem getTable_cons (p : String × Table) (rest : DB) (n : String) :
    getTable (p :: rest) n = if p.1 == n then some p.2 else getTable rest n := by
  by_cases h : p.1 == n <;> simp [getTable, List.find?_cons, h]

theorem setTable_cons (p : String × Table) (rest : DB) (n : String) (t : Table) :
    setTable (p :: rest) n t =
      (if p.1 == n then (p.1, t) else p) :: setTable rest n t := rfl

theorem getTable_setTable_self (db : DB) (n : String) (t2 : Table) :
    getTable (setTable db n t2) n = (getTable db n).map (fun _ => t2) := by
  induction db with
  | nil => rfl
  | cons p rest ih =>
      rw [setTable_cons]
      by_cases h : p.1 == n
      · rw [if_pos h, getTable_cons, getTable_cons]
        simp [h]
      · rw [if_neg h, getTable_cons, getTable_cons, if_neg h, if_neg h, ih]

theorem getTable_setTable_ne (db : DB) (m n : String) (t2 : Table)
    (h : m ≠ n) : getTable (setTable db n t2) m = getTable db m := by
  induction db with
  | nil => rfl
  | cons p rest ih =>
      rw [setTable_cons]
      by_cases h1 : p.1 == n
      · have h2 : (p.1 == m) = false := by
          rw [beq_eq_false_iff_ne]
          intro hm
          rw [beq_iff_eq] at h1
          exact h (hm.symm.trans h1)
        rw [if_pos h1, getTable_cons, getTable_cons]
        simp only [h2, if_false, Bool.false_eq_true, ite_false]
        exact ih
      · rw [if_neg h1, getTable_cons, getTable_cons]
        by_cases h3 : p.1 == m
        · simp [h3]
        · simp only [h3, Bool.false_eq_true, ite_false]
          exact ih

theorem dbInsert_ok (db : DB) (n : String) (fs : List (String × SqlVal))
    (t : Table) (h : getTable db n = some t) :
    dbInsert db n fs =
      .ok (t.nextId, setTable db n
        { t with nextId := t.nextId + 1, rows := t.rows ++ [⟨t.nextId, fs⟩] }) := by
  simp [dbInsert, getTableE, h, tableInsert]

theorem dbInsert_missing (db : DB) (n : String) (fs : List (String × SqlVal))
    (h : getTable db n = none) : dbInsert db n fs = .error .operationalError := by
  simp [dbInsert, getTableE, h]

theorem find?_append_none {α : Type} (p : α → Bool) (l1 l2 : List α)
    (h : ∀ a ∈ l1, p a = false) :
    List.find? p (l1 ++ l2) = List.find? p l2 := by
  rw [List.find?_append]
  have h0 : List.find? p l1 = none :=
    List.find?_eq_none.mpr (fun a ha => by simp [h a ha])
  rw [h0, Option.none_or]

/- ================================================================
   Well-formedness of a table and ordering lemmas
   ================================================================ -/

theorem wfTable_insert (t : Table) (fs : List (String × SqlVal))
    (h : WfTable t) :
    WfTable { t with nextId := t.nextId + 1, rows := t.rows ++ [⟨t.nextId, fs⟩] } := by
  obtain ⟨h1, h2⟩ := h
  constructor
  · simp [List.pairwise_append, h1]
    exact fun r hr => h2 r hr
  · intro r hr
    simp at hr
    rcases hr with hr | hr
    · exact Nat.lt_succ_of_lt (h2 r hr)
    · simp [hr]

theorem orderedInsert_rowid_append (a : Row) (l : List Row)
    (h : ∀ b ∈ l, a.rowid < b.rowid) :
    l.orderedInsert (fun x y => y.rowid ≤ x.rowid) a = l ++ [a] := by
  induction l with
  | nil => rfl
  | cons b rest ih =>
      have hb : ¬ (b.rowid ≤ a.rowid) := Nat.not_le.mpr (h b (by simp))
      simp [List.orderedInsert, hb]
      exact ih fun c hc => h c (by simp [hc])

theorem sortRowsDesc_eq_reverse (l : List Row)
    (h : l.Pairwise (fun a b => a.rowid < b.rowid)) :
    sortRowsDesc l = l.reverse := by
  induction l with
  | nil => rfl
  | cons a rest ih =>
      have hrest := List.Pairwise.of_cons h
      have hhead : ∀ b ∈ rest, a.rowid < b.rowid :=
        fun b hb => List.rel_of_pairwise_cons h hb
      have : sortRowsDesc (a :: rest) =
          (sortRowsDesc rest).orderedInsert (fun x y => y.rowid ≤ x.rowid) a := rfl
      rw [this, ih hrest, orderedInsert_rowid_append]
      · simp
      · intro b hb
        exact hhead b (by simpa using hb)

theorem sortRowsAsc_eq_self (l : List Row)
    (h : l.Pairwise (fun a b => a.rowid < b.rowid)) :
    sortRowsAsc l = l := by
  induction l with
  | nil => rfl
  | cons a rest ih =>
      have hrest := List.Pairwise.of_cons h
      have hhead : ∀ b ∈ rest, a.rowid < b.rowid :=
        fun b hb => List.rel_of_pairwise_cons h hb
      have h1 : sortRowsAsc (a :: rest) =
          (sortRowsAsc rest).orderedInsert (fun x y => x.rowid ≤ y.rowid) a := rfl
      rw [h1, ih hrest]
      cases rest with
      | nil => rfl
      | cons b rest2 =>
          have : a.rowid ≤ b.rowid := Nat.le_of_lt (hhead b (by simp))
          simp [List.orderedInsert, this]

theorem getLast?_of_isLatest (l : List Row) (r : Row)
    (hp : l.Pairwise (fun a b => a.rowid < b.rowid)) (hl : IsLatest l r) :
    l.getLast? = some r := by
  induction l with
  | nil => exact absurd hl.1 (List.not_mem_nil r)
  | cons a rest ih =>
      cases rest with
      | nil =>
          have : r = a := by simpa using hl.1
          simp [this]
      | cons b rest2 =>
          have hhead : ∀ x ∈ b :: rest2, a.rowid < x.rowid :=
            fun x hx => List.rel_of_pairwise_cons hp hx
          have hmem : r ∈ b :: rest2 := by
            rcases (by simpa using hl.1 : r = a ∨ r ∈ b :: rest2) with hr | hr
            · exfalso
              have h1 := hl.2 b (by simp)
              have h2 := hhead b (by simp)
              subst hr
              omega
            · exact hr
          have : (a :: b :: rest2).getLast? = (b :: rest2).getLast? := by
            simp [List.getLast?_cons_cons]
          rw [this]
          exact ih (List.Pairwise.of_cons hp)
            ⟨hmem, fun x hx => hl.2 x (by simp [hx])⟩

theorem sortDesc_head_of_isLatest (l : List Row) (r : Row)
    (hp : l.Pairwise (fun a b => a.rowid < b.rowid)) (hl : IsLatest l r) :
    (sortRowsDesc l).head? = some r := by
  rw [sortRowsDesc_eq_reverse l hp, List.head?_reverse]
  exact getLast?_of_isLatest l r hp hl

/- ================================================================
   Digits and the isoformat round trip
   ================================================================ -/

theorem digitChar_toNat (n : Nat) : (digitChar n).toNat = 48 + n % 10 := by
  have aux : ∀ k, k < 10 → (Char.ofNat (48 + k)).toNat = 48 + k := by decide
  simpa [digitChar] using aux (n % 10) (Nat.mod_lt n (by norm_num))

theorem digitChar_isDigit (n : Nat) : (digitChar n).isDigit = true := by
  have aux : ∀ k, k < 10 → (Char.ofNat (48 + k)).isDigit = true := by decide
  simpa [digitChar] using aux (n % 10) (Nat.mod_lt n (by norm_num))

theorem dVal_digitChar (n : Nat) : dVal (digitChar n) = n % 10 := by
  simp [dVal, digitChar_toNat]

theorem d2v_pad2 (n : Nat) (h : n < 100) :
    d2v (digitChar (n / 10)) (digitChar n) = n := by
  simp only [d2v, dVal_digitChar]
  omega

theorem d4v_pad4 (n : Nat) (h : n < 10000) :
    d4v (digitChar (n / 1000)) (digitChar (n / 100)) (digitChar (n / 10))
      (digitChar n) = n := by
  simp only [d4v, dVal_digitChar]
  omega

theorem d6v_pad6 (n : Nat) (h : n < 1000000) :
    d6v (digitChar (n / 100000)) (digitChar (n / 10000)) (digitChar (n / 1000))
      (digitChar (n / 100)) (digitChar (n / 10)) (digitChar n) = n := by
  simp only [d6v, dVal_digitChar]
  omega

/-- `datetime.fromisoformat(t.isoformat()) == t` for any naive datetime whose
fields fit the printed field widths. -/
theorem fromisoformat_isoformat (d : Datetime) (hy : d.year < 10000)
    (hmo : d.month < 100) (hd : d.day < 100) (hh : d.hour < 100)
    (hmi : d.minute < 100) (hs : d.second < 100)
    (hu : d.microsecond < 1000000) :
    fromisoformat (isoformat d) = some d := by
  obtain ⟨y, mo, dy, hr, mi, se, us⟩ := d
  by_cases h0 : us = 0
  · subst h0
    have hchars : isoChars ⟨y, mo, dy, hr, mi, se, 0⟩ =
        [digitChar (y / 1000), digitChar (y / 100), digitChar (y / 10), digitChar y,
         '-', digitChar (mo / 10), digitChar mo, '-', digitChar (dy / 10), digitChar dy,
         'T', digitChar (hr / 10), digitChar hr, ':', digitChar (mi / 10), digitChar mi,
         ':', digitChar (se / 10), digitChar se] := by
      simp [isoChars, pad4, pad2, pad6]
    rw [isoformat, hchars]
    simp only [fromisoformat, List.all_cons, List.all_nil, digitChar_isDigit,
      Bool.and_true, Bool.true_and, beq_self_eq_true, if_true]
    rw [d4v_pad4 y hy, d2v_pad2 mo hmo, d2v_pad2 dy hd, d2v_pad2 hr hh,
        d2v_pad2 mi hmi, d2v_pad2 se hs]
  · have hchars : isoChars ⟨y, mo, dy, hr, mi, se, us⟩ =
        [digitChar (y / 1000), digitChar (y / 100), digitChar (y / 10), digitChar y,
         '-', digitChar (mo / 10), digitChar mo, '-', digitChar (dy / 10), digitChar dy,
         'T', digitChar (hr / 10), digitChar hr, ':', digitChar (mi / 10), digitChar mi,
         ':', digitChar (se / 10), digitChar se,
         '.', digitChar (us / 100000), digitChar (us / 10000), digitChar (us / 1000),
         digitChar (us / 100), digitChar (us / 10), digitChar us] := by
      simp [isoChars, pad4, pad2, pad6, h0]
    rw [isoformat, hchars]
    simp only [fromisoformat, List.all_cons, List.all_nil, digitChar_isDigit,
      Bool.and_true, Bool.true_and, beq_self_eq_true, if_true]
    rw [d4v_pad4 y hy, d2v_pad2 mo hmo, d2v_pad2 dy hd, d2v_pad2 hr hh,
        d2v_pad2 mi hmi, d2v_pad2 se hs, d6v_pad6 us hu]

/-- `isoformat` never prints the empty string (it always prints at least the
19 date-time characters). -/
theorem isoformat_ne_empty (d : Datetime) : (isoformat d == "") = false := by
  rw [beq_eq_false_iff_ne]
  intro hcontra
  have hdata : isoChars d = [] := congrArg String.data hcontra
  obtain ⟨y, mo, dy, hr, mi, se, us⟩ := d
  by_cases h0 : us = 0
  · subst h0
    simp [isoChars, pad4, pad2, pad6] at hdata
  · simp [isoChars, pad4, pad2, pad6, h0] at hdata

/- ================================================================
   C9: register / verify round trip in historial.py
   ================================================================ -/

/-- String-literal column-name comparisons used when reducing `rowVal` on
the historial_general schema. -/
theorem beq_col_facts :
    (("entidad" == "id_evento") = false) ∧
    (("id_entidad" == "id_evento") = false) ∧
    (("accion" == "id_evento") = false) ∧
    (("valor_anterior" == "id_evento") = false) ∧
    (("valor_nuevo" == "id_evento") = false) ∧
    (("usuario" == "id_evento") = false) ∧
    (("timestamp" == "id_evento") = false) ∧
    (("hash_evento" == "id_evento") = false) := by
  decide

/-- C9: for every event written through `HistorialRepository.registrar_evento`
(any entidad, id, accion, values, usuario, and any clock reading
representable by `isoformat`), `verificar_integridad_evento` on the returned
event id — which rebuilds the event from the stored row, re-parses the
stored timestamp with `fromisoformat`, re-serializes and re-hashes it —
reproduces the stored digest exactly and returns
`(True, "✓ Integridad verificada")`, the row not having been altered. -/
theorem c9_registrar_verificar_roundtrip
    (db : DB) (t : Table)
    (entidad accion valor_anterior valor_nuevo usuario : String)
    (id_entidad : Int) (now : Datetime)
    (ht : getTable db "historial_general" = some t)
    (hpk : t.pk = "id_evento")
    (hb : ∀ r ∈ t.rows, r.rowid < t.nextId)
    (hy : now.year < 10000) (hmo : now.month < 100) (hd : now.day < 100)
    (hh : now.hour < 100) (hmi : now.minute < 100) (hs : now.second < 100)
    (hu : now.microsecond < 1000000) :
    ∀ eid db2,
      Hist.registrar_evento db entidad id_entidad accion valor_anterior
        valor_nuevo usuario now = .ok (eid, db2) →
      Hist.verificar_integridad_evento db2 eid =
        .ok (true, "✓ Integridad verificada") := by
  intro eid db2 hreg
  set ev0 : Hist.EventoHistorial :=
    ⟨none, entidad, some id_entidad, accion, valor_anterior, valor_nuevo,
     usuario, some now, none⟩ with hev0
  set h := Hist.generar_hash ev0 with hh0
  set fs : List (String × SqlVal) :=
    [("entidad", .text entidad), ("id_entidad", .int id_entidad),
     ("accion", .text accion), ("valor_anterior", .text valor_anterior),
     ("valor_nuevo", .text valor_nuevo), ("usuario", .text usuario),
     ("timestamp", .text (isoformat now)), ("hash_evento", .text h)] with hfs
  have hins := dbInsert_ok db "historial_general" fs t ht
  rw [Hist.registrar_evento] at hreg
  simp only [← hev0, ← hh0, ← hfs, hins, bind, Except.bind, pure, Except.pure] at hreg
  obtain ⟨rfl, rfl⟩ : t.nextId = eid ∧
      setTable db "historial_general"
        { t with nextId := t.nextId + 1, rows := t.rows ++ [⟨t.nextId, fs⟩] } = db2 := by
    cases hreg
    exact ⟨rfl, rfl⟩
  set t2 : Table :=
    { t with nextId := t.nextId + 1, rows := t.rows ++ [⟨t.nextId, fs⟩] } with ht2
  have hget2 : getTable (setTable db "historial_general" t2) "historial_general" =
      some t2 := by
    rw [getTable_setTable_self, ht]
    rfl
  have hpk2 : t2.pk = "id_evento" := hpk
  have hfind : dbFindRow t2 "id_evento" (.int (Int.ofNat t.nextId)) =
      some ⟨t.nextId, fs⟩ := by
    rw [dbFindRow]
    show List.find? _ (t.rows ++ [⟨t.nextId, fs⟩]) = _
    rw [find?_append_none]
    · simp [rowVal, hpk, Int.ofNat_inj]
    · intro r hr
      simp [rowVal, hpk, Int.ofNat_inj]
      exact Nat.ne_of_lt (hb r hr)
  have hrv : ∀ c v, ((c == "id_evento") = false) →
      List.find? (fun f => f.1 == c) fs = some (c, v) →
      rowVal t2 ⟨t.nextId, fs⟩ c = v := by
    intro c v hc hf
    rw [rowVal]
    rw [hpk2, hc]
    simp [hf]
  obtain ⟨e1, e2, e3, e4, e5, e6, e7, e8⟩ := beq_col_facts
  have r1 := hrv "entidad" (.text entidad) e1 (by rw [hfs]; rfl)
  have r2 := hrv "id_entidad" (.int id_entidad) e2 (by rw [hfs]; rfl)
  have r3 := hrv "accion" (.text accion) e3 (by rw [hfs]; rfl)
  have r4 := hrv "valor_anterior" (.text valor_anterior) e4 (by rw [hfs]; rfl)
  have r5 := hrv "valor_nuevo" (.text valor_nuevo) e5 (by rw [hfs]; rfl)
  have r6 := hrv "usuario" (.text usuario) e6 (by rw [hfs]; rfl)
  have r7 := hrv "timestamp" (.text (isoformat now)) e7 (by rw [hfs]; rfl)
  have r8 := hrv "hash_evento" (.text h) e8 (by rw [hfs]; rfl)
  have hts : Hist.parseTsCol (SqlVal.text (isoformat now)) = .ok (some now) := by
    rw [Hist.parseTsCol]
    simp only [isoformat_ne_empty, Bool.false_eq_true, if_false,
      fromisoformat_isoformat now hy hmo hd hh hmi hs hu]
  rw [Hist.verificar_integridad_evento]
  simp only [getTableE, hget2, bind, Except.bind, hfind, r1, r2, r3, r4, r5, r6,
    r7, r8, hts, Hist.orEmpty, sqlText, pure, Except.pure]
  simp [← hev0, ← hh0]

/- ================================================================
   Inversion lemmas for the write path
   ================================================================ -/

theorem dbInsert_eq (db : DB) (n : String) (t : Table)
    (h : getTable db n = some t) (fs : List (String × SqlVal)) :
    dbInsert db n fs =
      .ok (t.nextId, setTable db n
        { t with nextId := t.nextId + 1, rows := t.rows ++ [⟨t.nextId, fs⟩] }) := by
  simp [dbInsert, getTableE, h, tableInsert]

theorem dbInsert_ok_inv (db : DB) (n : String) (fs : List (String × SqlVal))
    (k : Nat) (db2 : DB) (h : dbInsert db n fs = .ok (k, db2)) :
    ∃ t, getTable db n = some t ∧ k = t.nextId ∧
      db2 = setTable db n
        { t with nextId := t.nextId + 1, rows := t.rows ++ [⟨t.nextId, fs⟩] } := by
  cases hg : getTable db n with
  | none => rw [dbInsert_missing db n fs hg] at h; cases h
  | some t =>
      rw [dbInsert_eq db n t hg fs] at h
      simp only [Except.ok.injEq, Prod.mk.injEq] at h
      exact ⟨t, rfl, h.1.symm, h.2.symm⟩

theorem dbUpdate_ok_inv (db : DB) (n idc : String) (idv : SqlVal)
    (data : List (String × SqlVal)) (k : Nat) (db2 : DB)
    (h : dbUpdate db n idc idv data = .ok (k, db2)) :
    ∃ t2, db2 = setTable db n t2 := by
  cases hg : getTable db n with
  | none => simp [dbUpdate, getTableE, hg] at h
  | some t =>
      simp only [dbUpdate, getTableE, hg, bind, Except.bind, pure, Except.pure,
        Except.ok.injEq, Prod.mk.injEq] at h
      exact ⟨_, h.2.symm⟩

theorem dbDelete_ok_inv (db : DB) (n idc : String) (idv : SqlVal) (db2 : DB)
    (h : dbDelete db n idc idv = .ok db2) : ∃ t2, db2 = setTable db n t2 := by
  cases hg : getTable db n with
  | none => simp [dbDelete, getTableE, hg] at h
  | some t =>
      simp only [dbDelete, getTableE, hg, bind, Except.bind, pure, Except.pure,
        Except.ok.injEq] at h
      exact ⟨_, h.symm⟩

/-- What a successful `registrar_evento` did: none of its statements was
failed, the returned digest is `generar_hash` of the payload, the
transaction was committed, and each ledger gained exactly one appended row
(the event row carrying the same timestamp the digest was computed over). -/
theorem registrar_evento_ok (o : FailOracle) (entidad usuario : String)
    (c : Conn) (id_entidad : Int) (accion : String)
    (vn : List (String × JVal)) (va : Option (List (String × JVal)))
    (ts hv : String) (c2 : Conn)
    (h : registrar_evento o entidad usuario c id_entidad accion vn va ts =
      .ok (hv, c2)) :
    o.failHistIns = false ∧ o.failHashIns = false ∧ o.failCommit = false ∧
    hv = generar_hash entidad usuario accion vn ts ∧
    c2.pending = c2.committed ∧
    (∃ k1, ledgerRows c2.committed "historial_general" =
      ledgerRows c.pending "historial_general" ++
        [⟨k1, histFields entidad usuario accion id_entidad vn va ts hv⟩]) ∧
    (∃ k2, ledgerRows c2.committed "hash_registros" =
      ledgerRows c.pending "hash_registros" ++
        [⟨k2, hashRegFields entidad id_entidad hv⟩]) := by
  cases hfh : o.failHistIns
  case true =>
    simp [registrar_evento, hfh, bind, Except.bind, pure, Except.pure, throw,
      throwThe, MonadExceptOf.throw] at h
  cases hg : getTable c.pending "historial_general" with
  | none =>
      simp [registrar_evento, hfh, dbInsert_missing _ _ _ hg, bind,
        Except.bind, pure, Except.pure, throw, throwThe, MonadExceptOf.throw] at h
  | some th =>
  cases hfx : o.failHashIns
  case true =>
      simp [registrar_evento, hfh, hfx, dbInsert_eq _ _ _ hg, bind,
        Except.bind, pure, Except.pure, throw, throwThe, MonadExceptOf.throw] at h
  have hne1 : ("hash_registros" : String) ≠ "historial_general" := by decide
  have hxp : ∀ t2 : Table, getTable
      (setTable c.pending "historial_general" t2) "hash_registros" =
      getTable c.pending "hash_registros" :=
    fun t2 => getTable_setTable_ne _ _ _ t2 hne1
  cases hx : getTable c.pending "hash_registros" with
  | none =>
      have hxm : ∀ t2 fs, dbInsert (setTable c.pending "historial_general" t2)
          "hash_registros" fs = .error .operationalError :=
        fun t2 fs => dbInsert_missing _ _ fs ((hxp t2).trans hx)
      simp [registrar_evento, hfh, hfx, dbInsert_eq _ _ _ hg, hxm, bind,
        Except.bind, pure, Except.pure, throw, throwThe, MonadExceptOf.throw] at h
  | some tx =>
  have hxm : ∀ t2 fs, dbInsert (setTable c.pending "historial_general" t2)
      "hash_registros" fs =
      .ok (tx.nextId, setTable (setTable c.pending "historial_general" t2)
        "hash_registros"
        { tx with nextId := tx.nextId + 1, rows := tx.rows ++ [⟨tx.nextId, fs⟩] }) :=
    fun t2 fs => dbInsert_eq _ _ tx ((hxp t2).trans hx) fs
  cases hfc : o.failCommit
  case true =>
      simp [registrar_evento, hfh, hfx, hfc, dbInsert_eq _ _ _ hg, hxm, bind,
        Except.bind, pure, Except.pure, throw, throwThe, MonadExceptOf.throw,
        Functor.map, Except.map] at h
  simp only [registrar_evento, hfh, hfx, hfc, Bool.false_eq_true, if_false,
    dbInsert_eq _ _ _ hg, hxm, bind, Except.bind, pure, Except.pure,
    Except.ok.injEq, Prod.mk.injEq] at h
  obtain ⟨hhv, hc2⟩ := h
  refine ⟨rfl, rfl, rfl, hhv.symm, ?_, ⟨th.nextId, ?_⟩, ⟨tx.nextId, ?_⟩⟩
  · rw [← hc2]
  · rw [← hc2, ← hhv]
    show ledgerRows (setTable _ "hash_registros" _) "historial_general" = _
    rw [ledgerRows, getTable_setTable_ne _ _ _ _ (by decide),
      getTable_setTable_self, hg]
    simp [ledgerRows, hg]
  · rw [← hc2, ← hhv]
    show ledgerRows (setTable _ "hash_registros" _) "hash_registros" = _
    rw [ledgerRows, getTable_setTable_self, (hxp _).trans hx]
    simp [ledgerRows, hx]

theorem crearBody_ok_inv (o : FailOracle) (entidad usuario tabla : String)
    (data : List (String × JVal)) (ts : String) (db : DB) (i : Int) (c2 : Conn)
    (h : crearBody o entidad usuario tabla data ts db = .ok (i, c2)) :
    ∃ n p1 hv, dbInsert db tabla (data.map (fun p => (p.1, bindVal p.2))) =
        .ok (n, p1) ∧
      registrar_evento o entidad usuario ⟨db, p1⟩ (Int.ofNat n) "CREAR" data
        none ts = .ok (hv, c2) ∧ i = Int.ofNat n := by
  cases hfd : o.failDomain
  case true =>
    simp [crearBody, hfd, bind, Except.bind, pure, Except.pure, throw,
      throwThe, MonadExceptOf.throw] at h
  cases hins : dbInsert db tabla (data.map (fun p => (p.1, bindVal p.2))) with
  | error e =>
      simp [crearBody, hfd, hins, bind, Except.bind, pure, Except.pure,
        throw, throwThe, MonadExceptOf.throw] at h
  | ok p =>
      obtain ⟨n, p1⟩ := p
      cases hreg : registrar_evento o entidad usuario ⟨db, p1⟩ (Int.ofNat n)
          "CREAR" data none ts with
      | error e =>
          rw [crearBody] at h
          simp only [hfd, hins, bind, Except.bind, pure, Except.pure, throw,
            throwThe, MonadExceptOf.throw, Bool.false_eq_true, if_false] at h
          rw [hreg] at h
          cases h
      | ok q =>
          obtain ⟨hv, cc⟩ := q
          simp only [crearBody, hfd, hins, hreg, bind, Except.bind, pure,
            Except.pure, throw, throwThe, MonadExceptOf.throw,
            Bool.false_eq_true, if_false, Except.ok.injEq, Prod.mk.injEq] at h
          exact ⟨n, p1, hv, rfl, by rw [hreg, h.2], h.1.symm⟩

theorem actualizarBody_ok_inv (o : FailOracle) (entidad usuario tabla : String)
    (id_campo : String) (id_entidad : Int) (data : List (String × JVal))
    (ts : String) (db : DB) (b : Bool) (c2 : Conn)
    (h : actualizarBody o entidad usuario tabla id_campo id_entidad data ts db =
      .ok (b, c2)) :
    ∃ t rc p1 hv, getTable db tabla = some t ∧
      dbUpdate db tabla id_campo (.int id_entidad)
        (data.map (fun p => (p.1, bindVal p.2))) = .ok (rc, p1) ∧
      registrar_evento o entidad usuario ⟨db, p1⟩ id_entidad "ACTUALIZAR" data
        ((dbFindRow t id_campo (.int id_entidad)).map (rowDict t)) ts =
          .ok (hv, c2) ∧ b = decide (0 < rc) := by
  cases hfd : o.failDomain
  case true =>
    simp [actualizarBody, hfd, bind, Except.bind, pure, Except.pure, throw,
      throwThe, MonadExceptOf.throw] at h
  cases hg : getTable db tabla with
  | none =>
      simp [actualizarBody, hfd, getTableE, hg, bind, Except.bind, pure,
        Except.pure, throw, throwThe, MonadExceptOf.throw] at h
  | some t =>
      cases hupd : dbUpdate db tabla id_campo (.int id_entidad)
          (data.map (fun p => (p.1, bindVal p.2))) with
      | error e =>
          simp [actualizarBody, hfd, getTableE, hg, hupd, bind, Except.bind,
            pure, Except.pure, throw, throwThe, MonadExceptOf.throw] at h
      | ok p =>
          obtain ⟨rc, p1⟩ := p
          cases hreg : registrar_evento o entidad usuario ⟨db, p1⟩ id_entidad
              "ACTUALIZAR" data
              ((dbFindRow t id_campo (.int id_entidad)).map (rowDict t)) ts with
          | error e =>
              rw [actualizarBody] at h
              simp only [hfd, getTableE, hg, hupd, bind, Except.bind, pure,
                Except.pure, throw, throwThe, MonadExceptOf.throw,
                Bool.false_eq_true, if_false] at h
              rw [hreg] at h
              cases h
          | ok q =>
              obtain ⟨hv, cc⟩ := q
              simp only [actualizarBody, hfd, getTableE, hg, hupd, hreg, bind,
                Except.bind, pure, Except.pure, throw, throwThe,
                MonadExceptOf.throw, Bool.false_eq_true, if_false,
                Except.ok.injEq, Prod.mk.injEq] at h
              exact ⟨t, rc, p1, hv, rfl, rfl, by rw [hreg, h.2], h.1.symm⟩

theorem eliminarBody_ok_inv (o : FailOracle) (entidad usuario tabla : String)
    (id_campo : String) (id_entidad : Int) (ts : String) (db : DB) (b : Bool)
    (c2 : Conn)
    (h : eliminarBody o entidad usuario tabla id_campo id_entidad ts db =
      .ok (b, c2)) :
    (b = false ∧ c2 = ⟨db, db⟩) ∨
    (∃ t r p1 hv, getTable db tabla = some t ∧
      dbFindRow t id_campo (.int id_entidad) = some r ∧
      dbDelete db tabla id_campo (.int id_entidad) = .ok p1 ∧
      registrar_evento o entidad usuario ⟨db, p1⟩ id_entidad "ELIMINAR"
        [("deleted", .obj (rowDict t r))] none ts = .ok (hv, c2) ∧
      b = true) := by
  cases hfd : o.failDomain
  case true =>
    simp [eliminarBody, hfd, bind, Except.bind, pure, Except.pure, throw,
      throwThe, MonadExceptOf.throw] at h
  cases hg : getTable db tabla with
  | none =>
      simp [eliminarBody, hfd, getTableE, hg, bind, Except.bind, pure,
        Except.pure, throw, throwThe, MonadExceptOf.throw] at h
  | some t =>
      cases hfind : dbFindRow t id_campo (.int id_entidad) with
      | none =>
          simp only [eliminarBody, hfd, getTableE, hg, hfind, bind,
            Except.bind, pure, Except.pure, throw, throwThe,
            MonadExceptOf.throw, Bool.false_eq_true, if_false,
            Except.ok.injEq, Prod.mk.injEq] at h
          exact Or.inl ⟨h.1.symm, h.2.symm⟩
      | some r =>
          cases hdel : dbDelete db tabla id_campo (.int id_entidad) with
          | error e =>
              simp [eliminarBody, hfd, getTableE, hg, hfind, hdel, bind,
                Except.bind, pure, Except.pure, throw, throwThe,
                MonadExceptOf.throw] at h
          | ok p1 =>
              cases hreg : registrar_evento o entidad usuario ⟨db, p1⟩
                  id_entidad "ELIMINAR" [("deleted", .obj (rowDict t r))]
                  none ts with
              | error e =>
                  rw [eliminarBody] at h
                  simp only [hfd, getTableE, hg, hfind, hdel, bind,
                    Except.bind, pure, Except.pure, throw, throwThe,
                    MonadExceptOf.throw, Bool.false_eq_true, if_false] at h
                  rw [hreg] at h
                  cases h
              | ok q =>
                  obtain ⟨hv, cc⟩ := q
                  simp only [eliminarBody, hfd, getTableE, hg, hfind, hdel,
                    hreg, bind, Except.bind, pure, Except.pure, throw,
                    throwThe, MonadExceptOf.throw, Bool.false_eq_true,
                    if_false, Except.ok.injEq, Prod.mk.injEq] at h
                  exact Or.inr ⟨t, r, p1, hv, rfl, hfind, rfl,
                    by rw [hreg, h.2], h.1.symm⟩

theorem finishWrite_error {α : Type} (ext : Bool) (db : DB) (e : PyErr)
    (body : Except PyErr (α × Conn)) (h : body = .error e) :
    finishWrite ext db body = (.error (closeErr ext e), db) := by
  rw [h]; rfl

theorem finishWrite_ok {α : Type} (ext : Bool) (db : DB) (a : α) (c2 : Conn)
    (body : Except PyErr (α × Conn)) (h : body = .ok (a, c2)) :
    (finishWrite ext db body).2 = c2.committed ∧
    (finishWrite ext db body).1 =
      (if ext then .ok a else .error .recursionError) := by
  rw [h]
  cases ext <;> simp [finishWrite, cerrarStep]

theorem ledgerRows_setTable_other (db : DB) (n : String) (t2 : Table)
    (m : String) (h : m ≠ n) :
    ledgerRows (setTable db n t2) m = ledgerRows db m := by
  rw [ledgerRows, getTable_setTable_ne _ _ _ _ h, ledgerRows]

theorem crear_atomic (o : FailOracle) (ext : Bool)
    (entidad usuario tabla : String) (data : List (String × JVal))
    (ts : String) (db : DB)
    (h1 : tabla ≠ "historial_general") (h2 : tabla ≠ "hash_registros") :
    (GainNone db (crear o ext entidad usuario tabla data ts db).2 ∨
     GainBoth db (crear o ext entidad usuario tabla data ts db).2) ∧
    ((o.failHistIns = true ∨ o.failHashIns = true ∨ o.failCommit = true) →
      GainNone db (crear o ext entidad usuario tabla data ts db).2 ∧
      exOk (crear o ext entidad usuario tabla data ts db).1 = false) := by
  cases hb : crearBody o entidad usuario tabla data ts db with
  | error e =>
      have hf := finishWrite_error ext db e _ hb
      rw [crear, hf]
      exact ⟨Or.inl ⟨rfl, rfl⟩, fun _ => ⟨⟨rfl, rfl⟩, rfl⟩⟩
  | ok p =>
      obtain ⟨i, c2⟩ := p
      obtain ⟨n, p1, hv, hins, hreg, hi⟩ :=
        crearBody_ok_inv o entidad usuario tabla data ts db i c2 hb
      obtain ⟨hf1, hf2, hf3, hhv, hpc, ⟨k1, hL1⟩, ⟨k2, hL2⟩⟩ :=
        registrar_evento_ok o entidad usuario ⟨db, p1⟩ (Int.ofNat n) "CREAR"
          data none ts hv c2 hreg
      obtain ⟨t, hgt, hn, hp1⟩ :=
        dbInsert_ok_inv db tabla _ n p1 hins
      dsimp only at hL1 hL2
      rw [hp1] at hL1 hL2
      rw [ledgerRows_setTable_other db tabla _ _ (Ne.symm h1)] at hL1
      rw [ledgerRows_setTable_other db tabla _ _ (Ne.symm h2)] at hL2
      have hfin := finishWrite_ok ext db i c2 _ hb
      constructor
      · right
        show GainBoth db (finishWrite ext db (crearBody o entidad usuario tabla data ts db)).2
        rw [hfin.1]
        exact ⟨⟨_, hL1⟩, ⟨_, hL2⟩⟩
      · intro hflag
        rcases hflag with hflag | hflag | hflag
        · rw [hf1] at hflag; cases hflag
        · rw [hf2] at hflag; cases hflag
        · rw [hf3] at hflag; cases hflag

theorem actualizar_atomic (o : FailOracle) (ext : Bool)
    (entidad usuario tabla id_campo : String) (id_entidad : Int)
    (data : List (String × JVal)) (ts : String) (db : DB)
    (h1 : tabla ≠ "historial_general") (h2 : tabla ≠ "hash_registros") :
    (GainNone db (actualizar o ext entidad usuario tabla id_campo id_entidad data ts db).2 ∨
     GainBoth db (actualizar o ext entidad usuario tabla id_campo id_entidad data ts db).2) ∧
    ((o.failHistIns = true ∨ o.failHashIns = true ∨ o.failCommit = true) →
      GainNone db (actualizar o ext entidad usuario tabla id_campo id_entidad data ts db).2 ∧
      exOk (actualizar o ext entidad usuario tabla id_campo id_entidad data ts db).1 = false) := by
  cases hb : actualizarBody o entidad usuario tabla id_campo id_entidad data ts db with
  | error e =>
      have hf := finishWrite_error ext db e _ hb
      rw [actualizar, hf]
      exact ⟨Or.inl ⟨rfl, rfl⟩, fun _ => ⟨⟨rfl, rfl⟩, rfl⟩⟩
  | ok p =>
      obtain ⟨b, c2⟩ := p
      obtain ⟨t, rc, p1, hv, hgt, hupd, hreg, hbv⟩ :=
        actualizarBody_ok_inv o entidad usuario tabla id_campo id_entidad data
          ts db b c2 hb
      obtain ⟨hf1, hf2, hf3, hhv, hpc, ⟨k1, hL1⟩, ⟨k2, hL2⟩⟩ :=
        registrar_evento_ok o entidad usuario ⟨db, p1⟩ id_entidad "ACTUALIZAR"
          data _ ts hv c2 hreg
      obtain ⟨t2, hp1⟩ := dbUpdate_ok_inv db tabla id_campo _ _ rc p1 hupd
      dsimp only at hL1 hL2
      rw [hp1] at hL1 hL2
      rw [ledgerRows_setTable_other db tabla _ _ (Ne.symm h1)] at hL1
      rw [ledgerRows_setTable_other db tabla _ _ (Ne.symm h2)] at hL2
      have hfin := finishWrite_ok ext db b c2 _ hb
      constructor
      · right
        show GainBoth db (finishWrite ext db (actualizarBody o entidad usuario tabla id_campo id_entidad data ts db)).2
        rw [hfin.1]
        exact ⟨⟨_, hL1⟩, ⟨_, hL2⟩⟩
      · intro hflag
        rcases hflag with hflag | hflag | hflag
        · rw [hf1] at hflag; cases hflag
        · rw [hf2] at hflag; cases hflag
        · rw [hf3] at hflag; cases hflag

theorem eliminar_atomic (o : FailOracle) (ext : Bool)
    (entidad usuario tabla id_campo : String) (id_entidad : Int)
    (ts : String) (db : DB)
    (h1 : tabla ≠ "historial_general") (h2 : tabla ≠ "hash_registros") :
    (GainNone db (eliminar o ext entidad usuario tabla id_campo id_entidad ts db).2 ∨
     GainBoth db (eliminar o ext entidad usuario tabla id_campo id_entidad ts db).2) ∧
    ((o.failHistIns = true ∨ o.failHashIns = true ∨ o.failCommit = true) →
      (eliminar o ext entidad usuario tabla id_campo id_entidad ts db).2 = db) := by
  cases hb : eliminarBody o entidad usuario tabla id_campo id_entidad ts db with
  | error e =>
      have hf := finishWrite_error ext db e _ hb
      rw [eliminar, hf]
      exact ⟨Or.inl ⟨rfl, rfl⟩, fun _ => rfl⟩
  | ok p =>
      obtain ⟨b, c2⟩ := p
      have hfin := finishWrite_ok ext db b c2 _ hb
      rcases eliminarBody_ok_inv o entidad usuario tabla id_campo id_entidad
          ts db b c2 hb with ⟨hbf, hc2⟩ | ⟨t, r, p1, hv, hgt, hfind, hdel, hreg, hbt⟩
      · constructor
        · left
          show GainNone db (finishWrite ext db (eliminarBody o entidad usuario tabla id_campo id_entidad ts db)).2
          rw [hfin.1, hc2]
          exact ⟨rfl, rfl⟩
        · intro _
          show (finishWrite ext db (eliminarBody o entidad usuario tabla id_campo id_entidad ts db)).2 = db
          rw [hfin.1, hc2]
      · obtain ⟨hf1, hf2, hf3, hhv, hpc, ⟨k1, hL1⟩, ⟨k2, hL2⟩⟩ :=
          registrar_evento_ok o entidad usuario ⟨db, p1⟩ id_entidad "ELIMINAR"
            _ none ts hv c2 hreg
        obtain ⟨t2, hp1⟩ := dbDelete_ok_inv db tabla id_campo _ p1 hdel
        dsimp only at hL1 hL2
        rw [hp1] at hL1 hL2
        rw [ledgerRows_setTable_other db tabla _ _ (Ne.symm h1)] at hL1
        rw [ledgerRows_setTable_other db tabla _ _ (Ne.symm h2)] at hL2
        constructor
        · right
          show GainBoth db (finishWrite ext db (eliminarBody o entidad usuario tabla id_campo id_entidad ts db)).2
          rw [hfin.1]
          exact ⟨⟨_, hL1⟩, ⟨_, hL2⟩⟩
        · intro hflag
          rcases hflag with hflag | hflag | hflag
          · rw [hf1] at hflag; cases hflag
          · rw [hf2] at hflag; cases hflag
          · rw [hf3] at hflag; cases hflag

/-- C1: dual-write atomicity.  For every mutation operation (`crear`,
`actualizar`, `eliminar`) on any domain table and payload, under any
injected sqlite failures and either connection mode, the committed database
either gains the event row in historial_general together with the digest
row in hash_registros, or gains neither; and whenever one of the ledger
statements (either INSERT or the commit) raises, the transaction is rolled
back, neither ledger gains a row, and the call raises (for `eliminar`,
whose ledger writes only happen when the target row exists, the committed
state is exactly the original database). -/
theorem c1_dual_write_atomicity :
    ∀ (o : FailOracle) (ext : Bool) (entidad usuario tabla id_campo : String)
      (id_entidad : Int) (data : List (String × JVal)) (ts : String) (db : DB),
      tabla ≠ "historial_general" → tabla ≠ "hash_registros" →
      (((GainNone db (crear o ext entidad usuario tabla data ts db).2 ∨
         GainBoth db (crear o ext entidad usuario tabla data ts db).2) ∧
        ((o.failHistIns = true ∨ o.failHashIns = true ∨ o.failCommit = true) →
          GainNone db (crear o ext entidad usuario tabla data ts db).2 ∧
          exOk (crear o ext entidad usuario tabla data ts db).1 = false))) ∧
      (((GainNone db (actualizar o ext entidad usuario tabla id_campo id_entidad data ts db).2 ∨
         GainBoth db (actualizar o ext entidad usuario tabla id_campo id_entidad data ts db).2) ∧
        ((o.failHistIns = true ∨ o.failHashIns = true ∨ o.failCommit = true) →
          GainNone db (actualizar o ext entidad usuario tabla id_campo id_entidad data ts db).2 ∧
          exOk (actualizar o ext entidad usuario tabla id_campo id_entidad data ts db).1 = false))) ∧
      (((GainNone db (eliminar o ext entidad usuario tabla id_campo id_entidad ts db).2 ∨
         GainBoth db (eliminar o ext entidad usuario tabla id_campo id_entidad ts db).2) ∧
        ((o.failHistIns = true ∨ o.failHashIns = true ∨ o.failCommit = true) →
          (eliminar o ext entidad usuario tabla id_campo id_entidad ts db).2 = db))) :=
  fun o ext entidad usuario tabla id_campo id_entidad data ts db h1 h2 =>
    ⟨crear_atomic o ext entidad usuario tabla data ts db h1 h2,
     actualizar_atomic o ext entidad usuario tabla id_campo id_entidad data ts db h1 h2,
     eliminar_atomic o ext entidad usuario tabla id_campo id_entidad ts db h1 h2⟩

/-- Witness for C1 at a concrete input: a `crear` on the domain table
`empresas` whose historial INSERT is failed keeps both ledgers unchanged and
raises. -/
theorem c1_witness :
    ("empresas" ≠ "historial_general") ∧ ("empresas" ≠ "hash_registros") ∧
    (GainNone dbE (crear ⟨false, true, false, false⟩ true "empresa" "system"
        "empresas" [("nombre", JVal.str "Acme")] ts0 dbE).2 ∧
      exOk (crear ⟨false, true, false, false⟩ true "empresa" "system"
        "empresas" [("nombre", JVal.str "Acme")] ts0 dbE).1 = false) :=
  ⟨by decide, by decide,
    (c1_dual_write_atomicity ⟨false, true, false, false⟩ true "empresa"
      "system" "empresas" "id_empresa" 1 [("nombre", JVal.str "Acme")] ts0 dbE
      (by decide) (by decide)).1.2 (Or.inl rfl)⟩

/- ================================================================
   C8: cerrar_conexion
   ================================================================ -/

/-- C8: `cerrar_conexion` never terminates normally on a managed
connection — the method calls itself unconditionally whenever no external
connection was injected, so it exhausts any stack budget (`RecursionError`),
and every public query that closes its connection on the managed path
(`listar_eventos`, `linea_tiempo`, `verificar_integridad_cruzada`,
`auditoria_completa` shown here) raises instead of returning; with an
injected connection the close is a no-op and the same queries return. -/
theorem c8_cerrar_conexion_diverges :
    (∀ fuel : Nat, cerrar_conexion fuel false = none) ∧
    (∀ fuel : Nat, cerrar_conexion fuel true = some ()) ∧
    (∀ (db : DB) (t : Table) (limite : Nat) (ent : Option String),
      getTable db "historial_general" = some t →
      listar_eventos false limite ent db = .error .recursionError ∧
      exOk (listar_eventos true limite ent db) = true) ∧
    (∀ (db : DB) (t : Table) (entidad : String) (id_entidad : Int),
      getTable db "historial_general" = some t →
      linea_tiempo false entidad id_entidad db = .error .recursionError ∧
      exOk (linea_tiempo true entidad id_entidad db) = true) ∧
    (∀ (db : DB) (th tg : Table) (a b : SqlVal),
      getTable db "hash_registros" = some th →
      getTable db "historial_general" = some tg →
      verificar_integridad_cruzada false a b db = .error .recursionError ∧
      auditoria_completa false db = .error .recursionError) := by
  refine ⟨?_, ?_, ?_, ?_, ?_⟩
  · intro fuel
    induction fuel with
    | zero => rfl
    | succ n ih => simpa [cerrar_conexion] using ih
  · intro fuel
    cases fuel <;> simp [cerrar_conexion]
  · intro db t limite ent ht
    constructor
    · cases ent with
      | none =>
          simp [listar_eventos, getTableE, ht, cerrarStep, bind, Except.bind,
            pure, Except.pure]
      | some e =>
          simp [listar_eventos, getTableE, ht, cerrarStep, bind, Except.bind,
            pure, Except.pure]
    · cases ent with
      | none =>
          simp [listar_eventos, getTableE, ht, cerrarStep, bind, Except.bind,
            pure, Except.pure, exOk]
      | some e =>
          simp [listar_eventos, getTableE, ht, cerrarStep, bind, Except.bind,
            pure, Except.pure, exOk]
  · intro db t entidad id_entidad ht
    constructor
    · simp [linea_tiempo, getTableE, ht, cerrarStep, bind, Except.bind,
        pure, Except.pure]
    · simp [linea_tiempo, getTableE, ht, cerrarStep, bind, Except.bind,
        pure, Except.pure, exOk]
  · intro db th tg a b hth htg
    constructor
    · simp [verificar_integridad_cruzada, getTableE, hth, htg, cerrarStep,
        bind, Except.bind, pure, Except.pure]
    · simp [auditoria_completa, getTableE, hth, cerrarStep, bind,
        Except.bind, pure, Except.pure]

/-- Witness for C8: on a freshly initialised database with a managed
connection, the queries raise `RecursionError`; with an injected connection
they return. -/
theorem c8_witness :
    cerrar_conexion 1000 false = none ∧
    listar_eventos false 25 none db0 = .error .recursionError ∧
    exOk (listar_eventos true 25 none db0) = true ∧
    verificar_integridad_cruzada false (.text "invoice") (.int 999) db0 =
      .error .recursionError :=
  ⟨c8_cerrar_conexion_diverges.1 1000,
   (c8_cerrar_conexion_diverges.2.2.1 db0 tH0 25 none rfl).1,
   (c8_cerrar_conexion_diverges.2.2.1 db0 tH0 25 none rfl).2,
   (c8_cerrar_conexion_diverges.2.2.2.2 db0 tX0 tH0 (.text "invoice")
     (.int 999) rfl rfl).1⟩

/- ================================================================
   Forward computation lemmas for the no-failure oracle
   ================================================================ -/

theorem dbInsert_eq_bump (db : DB) (n : String) (t : Table)
    (h : getTable db n = some t) (fs : List (String × SqlVal)) :
    dbInsert db n fs = .ok (t.nextId, setTable db n (bumpT t fs)) :=
  dbInsert_eq db n t h fs

theorem dbUpdate_eq (db : DB) (n : String) (t : Table)
    (h : getTable db n = some t) (idc : String) (idv : SqlVal)
    (data : List (String × SqlVal)) :
    dbUpdate db n idc idv data =
      .ok ((t.rows.filter (fun r => rowVal t r idc == idv)).length,
        setTable db n { t with rows := t.rows.map (fun r =>
          if rowVal t r idc == idv then
            { r with fields := data.foldl setField r.fields } else r) }) := by
  simp [dbUpdate, getTableE, h]

/-- `registrar_evento` under the no-failure oracle, on a connection whose
pending view holds both ledgers: it returns the digest and commits a state
in which each ledger carries one more row. -/
theorem registrar_evento_eq (entidad usuario : String) (c : Conn)
    (id_entidad : Int) (accion : String) (vn : List (String × JVal))
    (va : Option (List (String × JVal))) (ts : String) (th tx : Table)
    (hg : getTable c.pending "historial_general" = some th)
    (hx : getTable c.pending "hash_registros" = some tx) :
    registrar_evento o0 entidad usuario c id_entidad accion vn va ts =
      .ok (generar_hash entidad usuario accion vn ts,
        ⟨setTable (setTable c.pending "historial_general"
            (bumpT th (histFields entidad usuario accion id_entidad vn va ts
              (generar_hash entidad usuario accion vn ts))))
          "hash_registros"
            (bumpT tx (hashRegFields entidad id_entidad
              (generar_hash entidad usuario accion vn ts))),
         setTable (setTable c.pending "historial_general"
            (bumpT th (histFields entidad usuario accion id_entidad vn va ts
              (generar_hash entidad usuario accion vn ts))))
          "hash_registros"
            (bumpT tx (hashRegFields entidad id_entidad
              (generar_hash entidad usuario accion vn ts)))⟩) := by
  have hne1 : ("hash_registros" : String) ≠ "historial_general" := by decide
  have hxm : ∀ t2 fs, dbInsert (setTable c.pending "historial_general" t2)
      "hash_registros" fs =
      .ok (tx.nextId, setTable (setTable c.pending "historial_general" t2)
        "hash_registros" (bumpT tx fs)) :=
    fun t2 fs =>
      dbInsert_eq_bump _ _ tx ((getTable_setTable_ne _ _ _ t2 hne1).trans hx) fs
  simp [registrar_evento, o0, dbInsert_eq_bump _ _ _ hg, hxm, bind,
    Except.bind, pure, Except.pure]

/- ================================================================
   C10: actualizar on an absent id
   ================================================================ -/

/-- C10: updating a record that does not exist still leaves the forensic
trace.  With an injected connection the call returns False (`cur.rowcount`
is 0); on the managed path it raises `RecursionError` from the close step —
yet in both modes one ACTUALIZAR event row with NULL valor_anterior and one
hash_registros row are committed: the ledger writes are not conditioned on
a row having been updated. -/
theorem c10_actualizar_absent (ext : Bool)
    (entidad usuario tabla id_campo : String) (id_entidad : Int)
    (data : List (String × JVal)) (ts : String) (db : DB) (t tg tx : Table)
    (hgt : getTable db tabla = some t)
    (habs : dbFindRow t id_campo (.int id_entidad) = none)
    (hg : getTable db "historial_general" = some tg)
    (hx : getTable db "hash_registros" = some tx)
    (h1 : tabla ≠ "historial_general") (h2 : tabla ≠ "hash_registros") :
    (actualizar o0 ext entidad usuario tabla id_campo id_entidad data ts db).1 =
      (if ext then .ok false else .error .recursionError) ∧
    (∃ k1, ledgerRows
        (actualizar o0 ext entidad usuario tabla id_campo id_entidad data ts db).2
        "historial_general" =
      ledgerRows db "historial_general" ++
        [⟨k1, histFields entidad usuario "ACTUALIZAR" id_entidad data none ts
          (generar_hash entidad usuario "ACTUALIZAR" data ts)⟩]) ∧
    (∃ k2, ledgerRows
        (actualizar o0 ext entidad usuario tabla id_campo id_entidad data ts db).2
        "hash_registros" =
      ledgerRows db "hash_registros" ++
        [⟨k2, hashRegFields entidad id_entidad
          (generar_hash entidad usuario "ACTUALIZAR" data ts)⟩]) := by
  have hfilter : t.rows.filter
      (fun r => rowVal t r id_campo == SqlVal.int id_entidad) = [] := by
    rw [List.filter_eq_nil_iff]
    intro r hr
    have := List.find?_eq_none.mp habs r hr
    simpa using this
  have hupd := dbUpdate_eq db tabla t hgt id_campo (.int id_entidad)
    (data.map (fun p => (p.1, bindVal p.2)))
  rw [hfilter] at hupd
  set t2 : Table := { t with rows := t.rows.map (fun r => if rowVal t r id_campo == SqlVal.int id_entidad then { r with fields := (data.map (fun p => (p.1, bindVal p.2))).foldl setField r.fields } else r) } with ht2
  have hg1 : getTable (setTable db tabla t2) "historial_general" = some tg := by
    rw [getTable_setTable_ne _ _ _ _ (Ne.symm h1)]
    exact hg
  have hx1 : getTable (setTable db tabla t2) "hash_registros" = some tx := by
    rw [getTable_setTable_ne _ _ _ _ (Ne.symm h2)]
    exact hx
  have hreg := registrar_evento_eq entidad usuario ⟨db, setTable db tabla t2⟩
    id_entidad "ACTUALIZAR" data none ts tg tx hg1 hx1
  dsimp only at hreg
  have hbody : actualizarBody o0 entidad usuario tabla id_campo id_entidad
      data ts db = .ok (false,
      ⟨setTable (setTable (setTable db tabla t2) "historial_general"
          (bumpT tg (histFields entidad usuario "ACTUALIZAR" id_entidad data
            none ts (generar_hash entidad usuario "ACTUALIZAR" data ts))))
        "hash_registros"
          (bumpT tx (hashRegFields entidad id_entidad
            (generar_hash entidad usuario "ACTUALIZAR" data ts))),
       setTable (setTable (setTable db tabla t2) "historial_general"
          (bumpT tg (histFields entidad usuario "ACTUALIZAR" id_entidad data
            none ts (generar_hash entidad usuario "ACTUALIZAR" data ts))))
        "hash_registros"
          (bumpT tx (hashRegFields entidad id_entidad
            (generar_hash entidad usuario "ACTUALIZAR" data ts)))⟩) := by
    rw [actualizarBody]
    simp only [o0, Bool.false_eq_true, if_false, getTableE, hgt, bind,
      Except.bind, pure, Except.pure]
    rw [habs, hupd]
    simp only [Option.map_none', bind, Except.bind]
    simp only [o0] at hreg
    rw [hreg]
    simp
  have hfin := finishWrite_ok ext db false _ _ hbody
  refine ⟨?_, ?_, ?_⟩
  · rw [actualizar]
    exact hfin.2
  · refine ⟨tg.nextId, ?_⟩
    rw [actualizar, hfin.1]
    rw [ledgerRows_setTable_other _ _ _ _ (by decide),
      ledgerRows, getTable_setTable_self, hg1]
    simp [bumpT, ledgerRows, hg]
  · refine ⟨tx.nextId, ?_⟩
    rw [actualizar, hfin.1]
    rw [ledgerRows, getTable_setTable_self,
      getTable_setTable_ne _ _ _ _ (by decide), hx1]
    simp [bumpT, ledgerRows, hx]

/-- Witness for C10: on the fixture database (empty `empresas` table), an
update of the absent id 999 returns False on the injected connection and
both ledgers gain their row. -/
theorem c10_witness :
    (actualizar o0 true "empresa" "system" "empresas" "id_empresa" 999
        [("nombre", JVal.str "X")] ts0 dbE).1 = .ok false ∧
    (∃ k1, ledgerRows
        (actualizar o0 true "empresa" "system" "empresas" "id_empresa" 999
          [("nombre", JVal.str "X")] ts0 dbE).2 "historial_general" =
      ledgerRows dbE "historial_general" ++
        [⟨k1, histFields "empresa" "system" "ACTUALIZAR" 999
          [("nombre", JVal.str "X")] none ts0
          (generar_hash "empresa" "system" "ACTUALIZAR"
            [("nombre", JVal.str "X")] ts0)⟩]) ∧
    (∃ k2, ledgerRows
        (actualizar o0 true "empresa" "system" "empresas" "id_empresa" 999
          [("nombre", JVal.str "X")] ts0 dbE).2 "hash_registros" =
      ledgerRows dbE "hash_registros" ++
        [⟨k2, hashRegFields "empresa" 999
          (generar_hash "empresa" "system" "ACTUALIZAR"
            [("nombre", JVal.str "X")] ts0)⟩]) :=
  c10_actualizar_absent true "empresa" "system" "empresas" "id_empresa" 999
    [("nombre", JVal.str "X")] ts0 dbE ⟨"id_empresa", 1, []⟩ tH0 tX0
    rfl rfl rfl rfl (by decide) (by decide)

/- ================================================================
   C3: what the stored digest is computed over
   ================================================================ -/

/-- C3 counterexample: for a concrete CREAR event (entity id 7), the digest
the code stores is `generar_hash` of the payload without the id, and it
differs from the digest the specification prescribes over the field set
that includes the entity id. -/
theorem c3_counterexample :
    ((registrar_evento o0 "empresas" "system" ⟨db0, db0⟩ 7 "CREAR"
        [("nombre", JVal.str "Acme")] none ts0).map Prod.fst =
      .ok (generar_hash "empresas" "system" "CREAR"
        [("nombre", JVal.str "Acme")] ts0)) ∧
    generar_hash "empresas" "system" "CREAR" [("nombre", JVal.str "Acme")] ts0 ≠
      specEventDigest "empresas" 7 "CREAR" [("nombre", JVal.str "Acme")]
        "system" ts0 := by
  constructor
  · rfl
  · decide

/-- C3 (amended): every digest persisted by `registrar_evento` is the
SHA-256 of the canonical JSON of \x7bentidad, accion, valores, usuario,
timestamp\x7d — the entity id does **not** participate — and the digest is
computed over the exact timestamp persisted in the row (the stored event
row carries the same `ts` and the digest next to it); two calls differing
only in the entity id store the same digest. -/
theorem c3_digest_payload (o : FailOracle) (entidad usuario : String)
    (c : Conn) (id_entidad : Int) (accion : String)
    (vn : List (String × JVal)) (va : Option (List (String × JVal)))
    (ts hv : String) (c2 : Conn)
    (h : registrar_evento o entidad usuario c id_entidad accion vn va ts =
      .ok (hv, c2)) :
    hv = sha256Hex (dumpsCanon (hashPayload entidad usuario accion vn ts)) ∧
    (∃ k1, ledgerRows c2.committed "historial_general" =
      ledgerRows c.pending "historial_general" ++
        [⟨k1, histFields entidad usuario accion id_entidad vn va ts hv⟩]) ∧
    (∀ (id2 : Int) (hv2 : String) (c3 : Conn),
      registrar_evento o entidad usuario c id2 accion vn va ts =
        .ok (hv2, c3) → hv2 = hv) := by
  obtain ⟨_, _, _, hhv, _, hl1, _⟩ :=
    registrar_evento_ok o entidad usuario c id_entidad accion vn va ts hv c2 h
  refine ⟨hhv, hl1, ?_⟩
  intro id2 hv2 c3 h2
  obtain ⟨_, _, _, hhv2, _, _, _⟩ :=
    registrar_evento_ok o entidad usuario c id2 accion vn va ts hv2 c3 h2
  rw [hhv2, hhv]

/-- Witness for C3's amended statement at a concrete successful call. -/
theorem c3_witness :
    (registrar_evento o0 "empresas" "system" ⟨db0, db0⟩ 7 "CREAR"
        [("nombre", JVal.str "Acme")] none ts0).map Prod.fst =
      .ok (sha256Hex (dumpsCanon (hashPayload "empresas" "system" "CREAR"
        [("nombre", JVal.str "Acme")] ts0))) := by
  have hreg : registrar_evento o0 "empresas" "system" ⟨db0, db0⟩ 7 "CREAR"
      [("nombre", JVal.str "Acme")] none ts0 =
      .ok (generar_hash "empresas" "system" "CREAR"
        [("nombre", JVal.str "Acme")] ts0, _) :=
    registrar_evento_eq "empresas" "system" ⟨db0, db0⟩ 7 "CREAR"
      [("nombre", JVal.str "Acme")] none ts0 tH0 tX0 rfl rfl
  rw [hreg]
  have := (c3_digest_payload o0 "empresas" "system" ⟨db0, db0⟩ 7 "CREAR"
    [("nombre", JVal.str "Acme")] none ts0 _ _ hreg).1
  rw [Except.map, ← this]

/- ================================================================
   C7: non-finite numbers do not stop the write path
   ================================================================ -/

/-- C7 counterexample: a record-event call whose payload value is the float
NaN does not raise — it returns the digest and inserts one row into each
ledger (`json.dumps` with its default `allow_nan=True` serializes NaN as
the token `NaN`). -/
theorem c7_counterexample :
    exOk (registrar_evento o0 "facturas" "system" ⟨db0, db0⟩ 42 "CREAR"
      [("amount", JVal.float .nan)] none ts0) = true ∧
    (registrar_evento o0 "facturas" "system" ⟨db0, db0⟩ 42 "CREAR"
        [("amount", JVal.float .nan)] none ts0).map
      (fun p => ((ledgerRows p.2.committed "historial_general").length,
                 (ledgerRows p.2.committed "hash_registros").length)) =
      .ok (1, 1) := by
  constructor
  · rfl
  · rfl

/-- C7 (amended): the canonical serializer is total on every payload value
the binding layer accepts — including the non-finite floats NaN, Infinity
and -Infinity, which CPython's `json.dumps` emits as bare tokens under its
default `allow_nan=True` — so a record-event call never fails on
serialization grounds: under the no-failure oracle it returns the digest
and appends one row to each ledger, whatever the payload. -/
theorem c7_nonfinite_payload_accepted (entidad usuario : String) (c : Conn)
    (id_entidad : Int) (accion : String) (vn : List (String × JVal))
    (va : Option (List (String × JVal))) (ts : String) (th tx : Table)
    (hg : getTable c.pending "historial_general" = some th)
    (hx : getTable c.pending "hash_registros" = some tx) :
    exOk (registrar_evento o0 entidad usuario c id_entidad accion vn va ts) =
      true ∧
    (registrar_evento o0 entidad usuario c id_entidad accion vn va ts).map
      (fun p => ((ledgerRows p.2.committed "historial_general").length,
                 (ledgerRows p.2.committed "hash_registros").length)) =
      .ok ((ledgerRows c.pending "historial_general").length + 1,
           (ledgerRows c.pending "hash_registros").length + 1) := by
  have hreg := registrar_evento_eq entidad usuario c id_entidad accion vn va
    ts th tx hg hx
  rw [hreg]
  constructor
  · rfl
  · obtain ⟨_, _, _, _, _, ⟨k1, hl1⟩, ⟨k2, hl2⟩⟩ :=
      registrar_evento_ok o0 entidad usuario c id_entidad accion vn va ts _ _ hreg
    rw [Except.map]
    dsimp only at hl1 hl2 ⊢
    rw [hl1, hl2]
    simp

/-- Witness for C7's amended statement: a NaN-carrying payload on the
fixture database. -/
theorem c7_witness :
    exOk (registrar_evento o0 "facturas" "system" ⟨db0, db0⟩ 42 "CREAR"
      [("x", JVal.float .infinity)] none ts0) = true ∧
    (registrar_evento o0 "facturas" "system" ⟨db0, db0⟩ 42 "CREAR"
        [("x", JVal.float .infinity)] none ts0).map
      (fun p => ((ledgerRows p.2.committed "historial_general").length,
                 (ledgerRows p.2.committed "hash_registros").length)) =
      .ok ((ledgerRows (⟨db0, db0⟩ : Conn).pending "historial_general").length + 1,
           (ledgerRows (⟨db0, db0⟩ : Conn).pending "hash_registros").length + 1) :=
  c7_nonfinite_payload_accepted "facturas" "system" ⟨db0, db0⟩ 42 "CREAR"
    [("x", JVal.float .infinity)] none ts0 tH0 tX0 rfl rfl

/- ================================================================
   C2: cross-verification semantics
   ================================================================ -/

/-- With both ledgers readable and an injected connection, the
cross-verification call returns the pure comparison. -/
theorem verificar_eq (db : DB) (th tg : Table) (a b : SqlVal)
    (hth : getTable db "hash_registros" = some th)
    (htg : getTable db "historial_general" = some tg) :
    verificar_integridad_cruzada true a b db = .ok (cruzadaPure th tg a b) := by
  simp [verificar_integridad_cruzada, getTableE, hth, htg, cerrarStep, bind,
    Except.bind, pure, Except.pure]

/-- C2: cross-verification, on the injected-connection path, never raises:
it returns the `sin_datos` dict whenever either ledger has no row for the
key, and otherwise compares the digest of the event with the greatest
id_evento against the digest of the hash record with the greatest id_hash,
with `integridad_ok` true exactly when the two stored digest values are
equal.  (On a managed connection the close-step recursion makes the call
raise instead; that defect is recorded separately.) -/
theorem c2_verificar_cruzada (db : DB) (th tg : Table) (a b : SqlVal)
    (hth : getTable db "hash_registros" = some th)
    (htg : getTable db "historial_general" = some tg)
    (hwh : th.rows.Pairwise (fun r1 r2 => r1.rowid < r2.rowid))
    (hwg : tg.rows.Pairwise (fun r1 r2 => r1.rowid < r2.rowid)) :
    (∃ v, verificar_integridad_cruzada true a b db = .ok v) ∧
    ((hashRowsFor th a b = [] ∨ eventRowsFor tg a b = []) →
      verificar_integridad_cruzada true a b db =
        .ok (.sin_datos "No hay suficientes datos para verificar integridad")) ∧
    (∀ hr he, IsLatest (hashRowsFor th a b) hr →
      IsLatest (eventRowsFor tg a b) he →
      verificar_integridad_cruzada true a b db =
        .ok (.resultado a b (trunc32 (rowVal th hr "hash_sha256"))
          (trunc32 (rowVal tg he "hash_evento"))
          (rowVal th hr "hash_sha256") (rowVal tg he "hash_evento")
          (rowVal th hr "hash_sha256" == rowVal tg he "hash_evento")
          (if rowVal th hr "hash_sha256" == rowVal tg he "hash_evento" then
            "✅ Integridad verificada" else "❌ ALERTA: Hashes no coinciden"))) := by
  have hval := verificar_eq db th tg a b hth htg
  refine ⟨⟨_, hval⟩, ?_, ?_⟩
  · intro hemp
    rw [hval]
    rcases hemp with hemp | hemp
    · rw [cruzadaPure, hemp]
      rfl
    · rw [cruzadaPure, hemp]
      cases (sortRowsDesc (hashRowsFor th a b)).head? <;> rfl
  · intro hr he hlr hle
    have hph : (hashRowsFor th a b).Pairwise (fun r1 r2 => r1.rowid < r2.rowid) :=
      hwh.sublist (List.filter_sublist _)
    have hpg : (eventRowsFor tg a b).Pairwise (fun r1 r2 => r1.rowid < r2.rowid) :=
      hwg.sublist (List.filter_sublist _)
    have h1 := sortDesc_head_of_isLatest _ hr hph hlr
    have h2 := sortDesc_head_of_isLatest _ he hpg hle
    rw [hval, cruzadaPure, h1, h2]

/-- Witness for C2: on `dbC2` the comparison picks the event with the
greatest id (digest "bbb"), matches it against the hash row, and reports
`integridad_ok = true`; and the absent key (invoice, 999) yields the
`sin_datos` dict rather than an exception. -/
theorem c2_witness :
    verificar_integridad_cruzada true (.text "invoice") (.int 5) dbC2 =
      .ok (.resultado (.text "invoice") (.int 5) ("bbb..." ) ("bbb...")
        (.text "bbb") (.text "bbb") true "✅ Integridad verificada") ∧
    verificar_integridad_cruzada true (.text "invoice") (.int 999) dbC2 =
      .ok (.sin_datos "No hay suficientes datos para verificar integridad") := by
  constructor
  · have := (c2_verificar_cruzada dbC2 ⟨"id_hash", 2,
      [⟨1, [("tabla_origen", .text "invoice"), ("id_registro", .int 5),
            ("hash_sha256", .text "bbb")]⟩]⟩ ⟨"id_evento", 3,
      [⟨1, [("entidad", .text "invoice"), ("id_entidad", .int 5),
            ("hash_evento", .text "aaa")]⟩,
       ⟨2, [("entidad", .text "invoice"), ("id_entidad", .int 5),
            ("hash_evento", .text "bbb")]⟩]⟩ (.text "invoice") (.int 5)
      rfl rfl (by decide) (by decide)).2.2
      ⟨1, [("tabla_origen", .text "invoice"), ("id_registro", .int 5),
           ("hash_sha256", .text "bbb")]⟩
      ⟨2, [("entidad", .text "invoice"), ("id_entidad", .int 5),
           ("hash_evento", .text "bbb")]⟩
      ⟨by decide, by decide⟩
      ⟨by decide, by decide⟩
    rw [this]
    rfl
  · exact (c2_verificar_cruzada dbC2 _ _ (.text "invoice") (.int 999)
      rfl rfl (by decide) (by decide)).2.1 (Or.inl (by decide))

/- ================================================================
   C4: full-audit aggregation
   ================================================================ -/

/-- Unrolling the `auditoria_completa` loop when both ledgers are readable:
each iteration's cross-verification succeeds and contributes its pure
verdict. -/
theorem auditoria_foldlM (db : DB) (th tg : Table)
    (hth : getTable db "hash_registros" = some th)
    (htg : getTable db "historial_general" = some tg) :
    ∀ (regs : List (SqlVal × SqlVal)) (acc : Auditoria),
      List.foldlM (audLoopStep true db) acc regs =
        .ok (regs.foldl (fun a pr => audStep a (cruzadaPure th tg pr.1 pr.2)) acc) := by
  intro regs
  induction regs with
  | nil => intro acc; rfl
  | cons pr rest ih =>
      intro acc
      rw [List.foldlM_cons]
      have hstep : audLoopStep true db acc pr =
          .ok (audStep acc (cruzadaPure th tg pr.1 pr.2)) := by
        rw [audLoopStep, verificar_eq db th tg pr.1 pr.2 hth htg]
        rfl
      rw [hstep]
      simp only [bind, Except.bind, List.foldl_cons]
      exact ih _

/-- A list splits between a predicate and its complement. -/
theorem filter_partition_length {α : Type} (p q : α → Bool) :
    ∀ l : List α, (∀ x ∈ l, q x = !p x) →
      (l.filter p).length + (l.filter q).length = l.length := by
  intro l
  induction l with
  | nil => intro _; simp
  | cons a rest ih =>
      intro h
      have ha := h a (by simp)
      have hrest := ih (fun x hx => h x (by simp [hx]))
      rw [List.filter_cons, List.filter_cons, ha]
      cases hpa : p a
      · simp
        omega
      · simp
        omega

/-- The tally of the audit loop, when no verdict is `sin_datos`: the
counters split the keys into matches and mismatches, and exactly the
mismatching verdicts are accumulated into `detalles`. -/
theorem audFold_spec (f : (SqlVal × SqlVal) → Verif) :
    ∀ (regs : List (SqlVal × SqlVal)) (acc : Auditoria),
      (∀ pr ∈ regs, vIsSin (f pr) = false) →
      regs.foldl (fun a pr => audStep a (f pr)) acc =
        ⟨acc.total_verificados + regs.length,
         acc.integridad_ok + (regs.filter (fun pr => vIsOk (f pr))).length,
         acc.integridad_error + (regs.filter (fun pr => vIsMismatch (f pr))).length,
         acc.sin_datos,
         acc.detalles ++ (regs.filter (fun pr => vIsMismatch (f pr))).map f⟩ := by
  intro regs
  induction regs with
  | nil => intro acc h; simp
  | cons pr rest ih =>
      intro acc h
      have hpr := h pr (by simp)
      rw [List.foldl_cons]
      cases hfpr : f pr with
      | sin_datos m => rw [hfpr] at hpr; simp [vIsSin] at hpr
      | resultado t i s1 s2 v1 v2 ok m =>
          cases ok
          case true =>
            rw [ih _ (fun q hq => h q (by simp [hq]))]
            simp [audStep, hfpr, vIsOk, vIsMismatch, List.filter_cons]
            omega
          case false =>
            rw [ih _ (fun q hq => h q (by simp [hq]))]
            simp [audStep, hfpr, vIsOk, vIsMismatch, List.filter_cons]
            omega

/-- C4: when the hash index decomposes into keys whose latest digests
match the event ledger ("ok" keys) and keys whose latest digests differ
("mismatch" keys), with none lacking data, the full audit reports
`integridad_ok` = number of ok keys, `integridad_error` = number of
mismatch keys, `sin_datos = 0`, `total_verificados` = their sum, and its
`detalles` list holds exactly the mismatching verdicts — no ok verdict
enters it and no mismatch is dropped. -/
theorem c4_auditoria_completa (db : DB) (th tg : Table)
    (hth : getTable db "hash_registros" = some th)
    (htg : getTable db "historial_general" = some tg)
    (hnos : ∀ pr ∈ dedupKeys (th.rows.map (fun r =>
        (rowVal th r "tabla_origen", rowVal th r "id_registro"))),
      vIsSin (cruzadaPure th tg pr.1 pr.2) = false) :
    auditoria_completa true db = .ok
      ⟨(dedupKeys (th.rows.map (fun r =>
          (rowVal th r "tabla_origen", rowVal th r "id_registro")))).length,
       ((dedupKeys (th.rows.map (fun r =>
          (rowVal th r "tabla_origen", rowVal th r "id_registro")))).filter
            (fun pr => vIsOk (cruzadaPure th tg pr.1 pr.2))).length,
       ((dedupKeys (th.rows.map (fun r =>
          (rowVal th r "tabla_origen", rowVal th r "id_registro")))).filter
            (fun pr => vIsMismatch (cruzadaPure th tg pr.1 pr.2))).length,
       0,
       ((dedupKeys (th.rows.map (fun r =>
          (rowVal th r "tabla_origen", rowVal th r "id_registro")))).filter
            (fun pr => vIsMismatch (cruzadaPure th tg pr.1 pr.2))).map
          (fun pr => cruzadaPure th tg pr.1 pr.2)⟩ ∧
    ((dedupKeys (th.rows.map (fun r =>
        (rowVal th r "tabla_origen", rowVal th r "id_registro")))).filter
          (fun pr => vIsOk (cruzadaPure th tg pr.1 pr.2))).length +
      ((dedupKeys (th.rows.map (fun r =>
        (rowVal th r "tabla_origen", rowVal th r "id_registro")))).filter
          (fun pr => vIsMismatch (cruzadaPure th tg pr.1 pr.2))).length =
      (dedupKeys (th.rows.map (fun r =>
        (rowVal th r "tabla_origen", rowVal th r "id_registro")))).length := by
  constructor
  · rw [auditoria_completa]
    simp only [getTableE, hth, cerrarStep, bind, Except.bind, pure, Except.pure]
    rw [auditoria_foldlM db th tg hth htg, audFold_spec _ _ _ hnos]
    simp
  · apply filter_partition_length
    intro pr hpr
    have hs := hnos pr hpr
    cases hv : cruzadaPure th tg pr.1 pr.2 with
    | sin_datos m => rw [hv] at hs; simp [vIsSin] at hs
    | resultado t i s1 s2 v1 v2 ok m => simp [vIsOk, vIsMismatch]

/-- Witness for C4: on `dbC4` the audit counts 2 verified keys, 1 ok,
1 mismatch, 0 without data, and `detalles` holds exactly the one
mismatching verdict. -/
theorem c4_witness :
    auditoria_completa true dbC4 = .ok
      ⟨2, 1, 1, 0,
       [.resultado (.text "B") (.int 1) ("h2...") ("zz...")
          (.text "h2") (.text "zz") false "❌ ALERTA: Hashes no coinciden"]⟩ := by
  have h := (c4_auditoria_completa dbC4 ⟨"id_hash", 3,
     [⟨1, [("tabla_origen", .text "A"), ("id_registro", .int 1),
           ("hash_sha256", .text "h1")]⟩,
      ⟨2, [("tabla_origen", .text "B"), ("id_registro", .int 1),
           ("hash_sha256", .text "h2")]⟩]⟩ ⟨"id_evento", 3,
     [⟨1, [("entidad", .text "A"), ("id_entidad", .int 1),
           ("hash_evento", .text "h1")]⟩,
      ⟨2, [("entidad", .text "B"), ("id_entidad", .int 1),
           ("hash_evento", .text "zz")]⟩]⟩ rfl rfl (by decide)).1
  rw [h]
  rfl

/-- Witness for C9: registering one concrete event on the empty ledger and
then verifying the returned id reports the integrity check passed. -/
theorem c9_witness :
    Hist.verificar_integridad_evento c9db 1 = .ok (true, "✓ Integridad verificada") :=
  c9_registrar_verificar_roundtrip db0 tH0 "empresas" "crear" "" "x" "sistema" 7 dt0
    rfl rfl (by intro r hr; simp [tH0] at hr) (by decide) (by decide) (by decide)
    (by decide) (by decide) (by decide) (by decide) 1 c9db rfl

/- ================================================================
   C5: the append-only invariant
   ================================================================ -/

/-- Either branch of the atomicity disjunction extends both ledgers by a
(possibly empty) suffix. -/
theorem gain_extend (db d : DB) (h : GainNone db d ∨ GainBoth db d) :
    ∃ l1 l2,
      ledgerRows d "historial_general" = ledgerRows db "historial_general" ++ l1 ∧
      ledgerRows d "hash_registros" = ledgerRows db "hash_registros" ++ l2 := by
  rcases h with ⟨ha, hb⟩ | ⟨⟨er, ha⟩, ⟨hr, hb⟩⟩
  · exact ⟨[], [], by simp [ha], by simp [hb]⟩
  · exact ⟨[er], [hr], ha, hb⟩

/-- Counterexample to C5 as stated: `eliminar` is a public-contract
operation, accepts the ledger itself as target table, and then deletes a
previously written historial_general row.  Starting from a state whose
event ledger holds the single row with id 1, the call returns True and the
committed event ledger afterwards holds only the freshly appended ELIMINAR
event (id 2) — the original row is gone. -/
theorem c5_counterexample :
    ((ledgerRows dbC5 "historial_general").map Row.rowid = [1]) ∧
    ((eliminar o0 true "historial" "admin" "historial_general"
        "id_evento" 1 ts0 dbC5).1 = .ok true) ∧
    ((ledgerRows (eliminar o0 true "historial" "admin" "historial_general"
        "id_evento" 1 ts0 dbC5).2 "historial_general").map Row.rowid = [2]) := by
  decide

/-- C5 (amended): for the three mutation operations applied to any table
other than the two ledgers — every caller inside the repository layer
passes its own domain table — the committed ledgers only ever grow: after
the call each ledger's row list is the previous list extended by a
(possibly empty) suffix, so every earlier row's digest, payload and
timestamp survive unchanged.  Ledger-targeted calls are excluded: the
counterexample shows a ledger-targeted `eliminar` deletes an event row. -/
theorem c5_append_only (o : FailOracle) (ext : Bool)
    (entidad usuario tabla id_campo : String) (id_entidad : Int)
    (data : List (String × JVal)) (ts : String) (db : DB)
    (h1 : tabla ≠ "historial_general") (h2 : tabla ≠ "hash_registros") :
    (∃ l1 l2,
      ledgerRows (crear o ext entidad usuario tabla data ts db).2
          "historial_general" = ledgerRows db "historial_general" ++ l1 ∧
      ledgerRows (crear o ext entidad usuario tabla data ts db).2
          "hash_registros" = ledgerRows db "hash_registros" ++ l2) ∧
    (∃ l1 l2,
      ledgerRows (actualizar o ext entidad usuario tabla id_campo id_entidad
          data ts db).2 "historial_general" =
        ledgerRows db "historial_general" ++ l1 ∧
      ledgerRows (actualizar o ext entidad usuario tabla id_campo id_entidad
          data ts db).2 "hash_registros" =
        ledgerRows db "hash_registros" ++ l2) ∧
    (∃ l1 l2,
      ledgerRows (eliminar o ext entidad usuario tabla id_campo id_entidad
          ts db).2 "historial_general" =
        ledgerRows db "historial_general" ++ l1 ∧
      ledgerRows (eliminar o ext entidad usuario tabla id_campo id_entidad
          ts db).2 "hash_registros" =
        ledgerRows db "hash_registros" ++ l2) :=
  ⟨gain_extend _ _ ((crear_atomic o ext entidad usuario tabla data ts db h1 h2).1),
   gain_extend _ _ ((actualizar_atomic o ext entidad usuario tabla id_campo
     id_entidad data ts db h1 h2).1),
   gain_extend _ _ ((eliminar_atomic o ext entidad usuario tabla id_campo
     id_entidad ts db h1 h2).1)⟩

/-- Witness for C5: a concrete `crear` call on a domain table extends both
ledgers by a suffix. -/
theorem c5_witness :
    ∃ l1 l2,
      ledgerRows (crear o0 true "empresas" "admin" "empresas" [] ts0 dbE).2
          "historial_general" = ledgerRows dbE "historial_general" ++ l1 ∧
      ledgerRows (crear o0 true "empresas" "admin" "empresas" [] ts0 dbE).2
          "hash_registros" = ledgerRows dbE "hash_registros" ++ l2 :=
  (c5_append_only o0 true "empresas" "admin" "empresas" "id_empresa" 7 [] ts0 dbE
    (by decide) (by decide)).1

/- ================================================================
   C6: history ordering
   ================================================================ -/

theorem charsLe_cons (x y : Char) (xs ys : List Char) :
    charsLe (x :: xs) (y :: ys) =
      (if x.toNat < y.toNat then true
       else if y.toNat < x.toNat then false else charsLe xs ys) := rfl

theorem charsLe_total : ∀ xs ys, charsLe xs ys = true ∨ charsLe ys xs = true := by
  intro xs
  induction xs with
  | nil => intro ys; left; rfl
  | cons x xs ih =>
      intro ys
      cases ys with
      | nil => right; rfl
      | cons y ys =>
          rcases Nat.lt_trichotomy x.toNat y.toNat with h | h | h
          · left; simp [charsLe_cons, h]
          · rcases ih ys with h2 | h2
            · left; simp [charsLe_cons, h, h2]
            · right; simp [charsLe_cons, h, h2]
          · right; simp [charsLe_cons, h]

theorem charsLe_trans : ∀ xs ys zs, charsLe xs ys = true → charsLe ys zs = true →
    charsLe xs zs = true := by
  intro xs
  induction xs with
  | nil => intro ys zs h1 h2; rfl
  | cons x xs ih =>
      intro ys zs h1 h2
      cases ys with
      | nil => exact absurd h1 (by simp [charsLe])
      | cons y ys =>
          cases zs with
          | nil => exact absurd h2 (by simp [charsLe])
          | cons z zs =>
              rw [charsLe_cons] at h1 h2 ⊢
              rcases Nat.lt_trichotomy x.toNat y.toNat with hxy | hxy | hxy
              · rcases Nat.lt_trichotomy y.toNat z.toNat with hyz | hyz | hyz
                · rw [if_pos (by omega)]
                · rw [if_pos (by omega)]
                · rw [if_neg (by omega), if_pos hyz] at h2
                  exact Bool.noConfusion h2
              · rcases Nat.lt_trichotomy y.toNat z.toNat with hyz | hyz | hyz
                · rw [if_pos (by omega)]
                · rw [if_neg (by omega), if_neg (by omega)] at h1
                  rw [if_neg (by omega), if_neg (by omega)] at h2
                  rw [if_neg (by omega), if_neg (by omega)]
                  exact ih ys zs h1 h2
                · rw [if_neg (by omega), if_pos hyz] at h2
                  exact Bool.noConfusion h2
              · rw [if_neg (by omega), if_pos hxy] at h1
                exact Bool.noConfusion h1

theorem strLe_total (a b : String) : strLe a b = true ∨ strLe b a = true :=
  charsLe_total a.data b.data

theorem strLe_trans (a b c : String) (h1 : strLe a b = true)
    (h2 : strLe b c = true) : strLe a c = true :=
  charsLe_trans a.data b.data c.data h1 h2

/-- Rebuilding events from rows whose stored timestamps are isoformat
strings reproduces those timestamp strings. -/
theorem mapM_rowToEvento_ts (t : Table) :
    ∀ (rows : List Row) (res : List Hist.EventoHistorial),
      (∀ r ∈ rows, ∃ d : Datetime, d.year < 10000 ∧ d.month < 100 ∧
        d.day < 100 ∧ d.hour < 100 ∧ d.minute < 100 ∧ d.second < 100 ∧
        d.microsecond < 1000000 ∧
        rowVal t r "timestamp" = .text (isoformat d)) →
      rows.mapM (Hist.rowToEvento t) = .ok res →
      res.map Hist.tsStr = rows.map (fun r => sqlText (rowVal t r "timestamp")) := by
  intro rows
  induction rows with
  | nil =>
      intro res h hm
      simp only [List.mapM_nil, pure, Except.pure] at hm
      cases hm
      rfl
  | cons r rest ih =>
      intro res h hm
      obtain ⟨d, hy, hmo, hd, hh, hmi, hs, hu, hts⟩ := h r (by simp)
      rw [List.mapM_cons] at hm
      have hev : Hist.rowToEvento t r = .ok
          ⟨some r.rowid, sqlText (rowVal t r "entidad"),
           (match rowVal t r "id_entidad" with | .int n => some n | _ => none),
           sqlText (rowVal t r "accion"),
           Hist.orEmpty (rowVal t r "valor_anterior"),
           Hist.orEmpty (rowVal t r "valor_nuevo"),
           sqlText (rowVal t r "usuario"), some d,
           (match rowVal t r "hash_evento" with | .text s => some s | _ => none)⟩ := by
        rw [Hist.rowToEvento, hts]
        simp only [Hist.parseTsCol, isoformat_ne_empty, Bool.false_eq_true, if_false,
          fromisoformat_isoformat d hy hmo hd hh hmi hs hu, bind, Except.bind,
          pure, Except.pure]
      rw [hev] at hm
      simp only [bind, Except.bind] at hm
      cases hrest : rest.mapM (Hist.rowToEvento t) with
      | error e =>
          rw [hrest] at hm
          exact Except.noConfusion hm
      | ok es =>
          rw [hrest] at hm
          simp only [pure, Except.pure] at hm
          cases hm
          simp only [List.map_cons]
          rw [hts, ih es (fun x hx => h x (by simp [hx])) hrest]
          rfl

/-- Counterexample to C6 as stated for `obtener_historial_entidad`: two
events recorded for (invoice, 42) one second apart come back newest FIRST
(ids [2, 1]) — `ORDER BY timestamp DESC` — so the sequence is descending
and a newly recorded event appears first, not last. -/
theorem c6_counterexample :
    (Hist.obtener_historial_entidad c6db "invoice" 42 50).map
      (fun l => l.map (fun e => e.id)) = .ok [some 2, some 1] := by
  decide

/-- C6 (amended): of the two history queries, only `linea_tiempo` returns
ascending order.  On a well-formed ledger (ascending AUTOINCREMENT ids,
isoformat timestamps): (1) `linea_tiempo` returns the key's events in
storage order, which is ascending id_evento order; (2) after
`registrar_evento` records one further event for the key, re-querying
`linea_tiempo` returns the previous sequence with the new event appended
last; (3) `obtener_historial_entidad` instead returns at most `limite`
events in NON-INCREASING timestamp order — descending, newest first,
contradicting the claimed ascending order. -/
theorem c6_history_ordering (db : DB) (t : Table) (entidad : String)
    (id_entidad : Int) (limite : Nat)
    (ht : getTable db "historial_general" = some t)
    (hpk : t.pk = "id_evento")
    (hwf : WfTable t)
    (hts : ∀ r ∈ t.rows, ∃ d : Datetime, d.year < 10000 ∧ d.month < 100 ∧
        d.day < 100 ∧ d.hour < 100 ∧ d.minute < 100 ∧ d.second < 100 ∧
        d.microsecond < 1000000 ∧
        rowVal t r "timestamp" = .text (isoformat d)) :
    (linea_tiempo true entidad id_entidad db =
      .ok ((t.rows.filter (fun r =>
        rowVal t r "entidad" == .text entidad &&
        rowVal t r "id_entidad" == .int id_entidad)).map (lineaRow t))) ∧
    (∀ accion va vn usuario now eid db2,
      Hist.registrar_evento db entidad id_entidad accion va vn usuario now =
        .ok (eid, db2) →
      linea_tiempo true entidad id_entidad db2 =
        .ok ((t.rows.filter (fun r =>
          rowVal t r "entidad" == .text entidad &&
          rowVal t r "id_entidad" == .int id_entidad)).map (lineaRow t) ++
          [lineaRow t ⟨t.nextId,
            [("entidad", .text entidad), ("id_entidad", .int id_entidad),
             ("accion", .text accion), ("valor_anterior", .text va),
             ("valor_nuevo", .text vn), ("usuario", .text usuario),
             ("timestamp", .text (isoformat now)),
             ("hash_evento", .text (Hist.generar_hash
               ⟨none, entidad, some id_entidad, accion, va, vn, usuario,
                some now, none⟩))]⟩])) ∧
    (∀ res, Hist.obtener_historial_entidad db entidad id_entidad limite = .ok res →
      res.length ≤ limite ∧
      res.Pairwise (fun e1 e2 => strLe (Hist.tsStr e2) (Hist.tsStr e1) = true)) := by
  refine ⟨?_, ?_, ?_⟩
  · have hfp : (t.rows.filter (fun r =>
        rowVal t r "entidad" == SqlVal.text entidad &&
        rowVal t r "id_entidad" == SqlVal.int id_entidad)).Pairwise
        (fun a b => a.rowid < b.rowid) :=
      hwf.1.sublist (List.filter_sublist _)
    have hsort := sortRowsAsc_eq_self _ hfp
    simp [linea_tiempo, getTableE, ht, cerrarStep, bind, Except.bind, pure,
      Except.pure, hsort]
  · intro accion va vn usuario now eid db2 hreg
    set ev0 : Hist.EventoHistorial :=
      ⟨none, entidad, some id_entidad, accion, va, vn, usuario, some now, none⟩
      with hev0
    set hsh := Hist.generar_hash ev0 with hh0
    set fs : List (String × SqlVal) :=
      [("entidad", .text entidad), ("id_entidad", .int id_entidad),
       ("accion", .text accion), ("valor_anterior", .text va),
       ("valor_nuevo", .text vn), ("usuario", .text usuario),
       ("timestamp", .text (isoformat now)), ("hash_evento", .text hsh)] with hfs
    have hins := dbInsert_ok db "historial_general" fs t ht
    rw [Hist.registrar_evento] at hreg
    simp only [← hev0, ← hh0, ← hfs, hins, bind, Except.bind, pure,
      Except.pure] at hreg
    obtain ⟨rfl, rfl⟩ : t.nextId = eid ∧
        setTable db "historial_general"
          { t with nextId := t.nextId + 1,
                   rows := t.rows ++ [⟨t.nextId, fs⟩] } = db2 := by
      cases hreg
      exact ⟨rfl, rfl⟩
    set t2 : Table :=
      { t with nextId := t.nextId + 1, rows := t.rows ++ [⟨t.nextId, fs⟩] }
      with ht2
    have hget2 : getTable (setTable db "historial_general" t2)
        "historial_general" = some t2 := by
      rw [getTable_setTable_self, ht]
      rfl
    have hpk2 : t2.pk = "id_evento" := hpk
    have hrv : ∀ c v, ((c == "id_evento") = false) →
        List.find? (fun f => f.1 == c) fs = some (c, v) →
        rowVal t2 ⟨t.nextId, fs⟩ c = v := by
      intro c v hc hf
      rw [rowVal]
      rw [hpk2, hc]
      simp [hf]
    obtain ⟨e1, e2, e3, e4, e5, e6, e7, e8⟩ := beq_col_facts
    have r1 := hrv "entidad" (.text entidad) e1 (by rw [hfs]; rfl)
    have r2 := hrv "id_entidad" (.int id_entidad) e2 (by rw [hfs]; rfl)
    have hk : (rowVal t2 ⟨t.nextId, fs⟩ "entidad" == SqlVal.text entidad &&
        rowVal t2 ⟨t.nextId, fs⟩ "id_entidad" == SqlVal.int id_entidad) = true := by
      rw [r1, r2]
      simp
    have hfilter : t2.rows.filter (fun r =>
        rowVal t2 r "entidad" == SqlVal.text entidad &&
        rowVal t2 r "id_entidad" == SqlVal.int id_entidad) =
        t.rows.filter (fun r =>
          rowVal t2 r "entidad" == SqlVal.text entidad &&
          rowVal t2 r "id_entidad" == SqlVal.int id_entidad) ++
        [(⟨t.nextId, fs⟩ : Row)] := by
      show (t.rows ++ [(⟨t.nextId, fs⟩ : Row)]).filter _ = _
      rw [List.filter_append]
      simp [List.filter_cons, hk]
    have hpnew : (t.rows.filter (fun r =>
        rowVal t2 r "entidad" == SqlVal.text entidad &&
        rowVal t2 r "id_entidad" == SqlVal.int id_entidad) ++
        [(⟨t.nextId, fs⟩ : Row)]).Pairwise (fun a b => a.rowid < b.rowid) := by
      rw [List.pairwise_append]
      refine ⟨hwf.1.sublist (List.filter_sublist _),
        List.pairwise_singleton _ _, ?_⟩
      intro a ha b hb
      simp only [List.mem_singleton] at hb
      rw [hb]
      exact hwf.2 a (List.mem_of_mem_filter ha)
    rw [linea_tiempo]
    simp only [getTableE, hget2, bind, Except.bind, cerrarStep, pure, Except.pure]
    rw [hfilter, sortRowsAsc_eq_self _ hpnew, List.map_append]
    rfl
  · intro res hres
    rw [Hist.obtener_historial_entidad] at hres
    simp only [getTableE, ht, bind, Except.bind] at hres
    set rows2 := (Hist.sortRowsTsDesc t (t.rows.filter (fun r =>
      rowVal t r "entidad" == SqlVal.text entidad &&
      rowVal t r "id_entidad" == SqlVal.int id_entidad))).take limite with hrows2
    have hsub : ∀ r ∈ rows2, r ∈ t.rows := by
      intro r hr
      have h1 : r ∈ Hist.sortRowsTsDesc t (t.rows.filter (fun r =>
          rowVal t r "entidad" == SqlVal.text entidad &&
          rowVal t r "id_entidad" == SqlVal.int id_entidad)) :=
        List.take_subset _ _ hr
      have h2 := ((List.perm_insertionSort _ _).mem_iff).mp h1
      exact List.mem_of_mem_filter h2
    have hmap := mapM_rowToEvento_ts t rows2 res
      (fun r hr => hts r (hsub r hr)) hres
    constructor
    · have hlen : res.length = rows2.length := by
        have h3 := congrArg List.length hmap
        simpa using h3
      rw [hlen, hrows2]
      exact List.length_take_le _ _
    · letI : IsTotal Row (fun a b =>
          strLe (sqlText (rowVal t b "timestamp"))
            (sqlText (rowVal t a "timestamp")) = true) :=
        ⟨fun a b => strLe_total _ _⟩
      letI : IsTrans Row (fun a b =>
          strLe (sqlText (rowVal t b "timestamp"))
            (sqlText (rowVal t a "timestamp")) = true) :=
        ⟨fun a b c h1 h2 => strLe_trans _ _ _ h2 h1⟩
      have hsorted : (Hist.sortRowsTsDesc t (t.rows.filter (fun r =>
          rowVal t r "entidad" == SqlVal.text entidad &&
          rowVal t r "id_entidad" == SqlVal.int id_entidad))).Pairwise
          (fun a b => strLe (sqlText (rowVal t b "timestamp"))
            (sqlText (rowVal t a "timestamp")) = true) :=
        List.sorted_insertionSort _ _
      have hp2 : rows2.Pairwise (fun a b =>
          strLe (sqlText (rowVal t b "timestamp"))
            (sqlText (rowVal t a "timestamp")) = true) :=
        hsorted.sublist (List.take_sublist _ _)
      have hpm : (rows2.map (fun r =>
          sqlText (rowVal t r "timestamp"))).Pairwise
          (fun s1 s2 => strLe s2 s1 = true) :=
        List.pairwise_map.mpr hp2
      rw [← hmap] at hpm
      exact List.pairwise_map.mp hpm

/-- Witness for C6: on a concrete well-formed two-event ledger,
`linea_tiempo` returns the key's events in storage (ascending id) order. -/
theorem c6_witness :
    linea_tiempo true "invoice" 42 dbC6 =
      .ok ((tC6.rows.filter (fun r =>
        rowVal tC6 r "entidad" == .text "invoice" &&
        rowVal tC6 r "id_entidad" == .int 42)).map (lineaRow tC6)) :=
  (c6_history_ordering dbC6 tC6 "invoice" 42 50 rfl rfl ⟨by decide, by decide⟩
    (by
      intro r hr
      simp only [tC6] at hr
      simp at hr
      rcases hr with rfl | rfl
      · exact ⟨⟨2025, 1, 1, 0, 0, 0, 0⟩, by decide, by decide, by decide,
          by decide, by decide, by decide, by decide, by decide⟩
      · exact ⟨⟨2025, 1, 1, 0, 0, 1, 0⟩, by decide, by decide, by decide,
          by decide, by decide, by decide, by decide, by decide⟩)).1

end CRM
